import Mathlib

/-!
Shallow embedding of the utility-billing reconciliation engine implemented in
`src/backend/src/excel/excel.service.ts`, together with proofs checking the
natural-language specification against it.

Modelling conventions:
* JavaScript numbers are modelled as exact rationals (`ℚ`); IEEE-754
  rounding of the host runtime is abstracted away.
* JavaScript strings are Lean `String`s; the code-unit comparison operators
  (`<` on strings, and `localeCompare`, which the service only applies to
  ASCII-ish labels and ISO dates) are modelled as lexicographic comparison of
  the character lists.
* `Array.prototype.sort` (stable since ES2019) is modelled by
  `List.insertionSort`, which is stable; for the consistent comparators used
  by the service the results agree.
* JavaScript `Map` (insertion-ordered, set-replaces-in-place) is modelled by
  association lists with an upsert that keeps the original position.
-/

namespace ExcelAnalyzer

/-! ### Kernel-computable rational arithmetic

Batteries marks `Rat.add`, `Rat.sub` and `Rat.mul` `@[irreducible]`, which
prevents `decide`-style evaluation of concrete runs of the embedded program.
The wrappers below compute the same rationals through `mkRat`; the `_eq`
lemmas bridge them to the standard operations for the symbolic proofs. -/

/-- Addition of rationals via `mkRat` (kernel-reducible). -/
def rAdd (a b : ℚ) : ℚ := mkRat (a.num * b.den + b.num * a.den) (a.den * b.den)

/-- Negation of a rational via `mkRat` (kernel-reducible). -/
def rNeg (a : ℚ) : ℚ := mkRat (-a.num) a.den

/-- Subtraction of rationals via `mkRat` (kernel-reducible). -/
def rSub (a b : ℚ) : ℚ := mkRat (a.num * b.den - b.num * a.den) (a.den * b.den)

/-- Multiplication of rationals via `mkRat` (kernel-reducible). -/
def rMul (a b : ℚ) : ℚ := mkRat (a.num * b.num) (a.den * b.den)

/-- Division of rationals via `mkRat` (kernel-reducible); division by zero
gives `0`, matching Mathlib's convention (the embedded program never divides
by zero on the paths proved below). -/
def rDiv (a b : ℚ) : ℚ :=
  if 0 ≤ b.num then mkRat (a.num * b.den) (a.den * b.num.toNat)
  else mkRat (-(a.num * b.den)) (a.den * (-b.num).toNat)

/-- Absolute value of a rational, mirroring JavaScript `Math.abs`. -/
def rAbs (a : ℚ) : ℚ := if a < 0 then rNeg a else a

/-! ### JavaScript string and number primitives -/

/-- Whitespace characters recognised by the modelled JavaScript string
functions (`trim`, the `\s` regex class). The additional Unicode space
characters JavaScript also accepts never occur in the inputs considered
here and are not modelled. -/
def jsWhitespaceChar (c : Char) : Bool :=
  c = ' ' || c = '\t' || c = '\n' || c = '\r' || c = '\x0b' || c = '\x0c'

/-- Model of `String.prototype.trim`. -/
def jsTrim (s : String) : String :=
  ⟨((s.data.dropWhile jsWhitespaceChar).reverse.dropWhile jsWhitespaceChar).reverse⟩

/-- Model of `str.replace(/\s+/g, "")`: removes every whitespace character. -/
def stripJsWhitespace (s : String) : String :=
  ⟨s.data.filter (fun c => !jsWhitespaceChar c)⟩

/-- Model of `str.replace(target, rep)` with one-character string arguments:
replaces only the first occurrence. -/
def replaceFirstChar : List Char → Char → Char → List Char
  | [], _, _ => []
  | c :: rest, target, rep =>
    if c = target then rep :: rest else c :: replaceFirstChar rest target rep

/-- Numeric value of a list of decimal digit characters. -/
def digitsToNat (ds : List Char) : ℕ :=
  ds.foldl (fun acc c => acc * 10 + (c.toNat - 48)) 0

/-- Parser for the optional exponent suffix of a JavaScript decimal number
literal ("", "e12", "E-3", ...). Returns `none` when the suffix is present
but malformed (which makes the whole `Number(...)` conversion yield NaN). -/
def parseNumExponent (cs : List Char) : Option ℤ :=
  if cs = [] then some 0
  else if cs.head? = some 'e' ∨ cs.head? = some 'E' then
    let rest := cs.tail
    let esign : ℤ := if rest.head? = some '-' then -1 else 1
    let ds := if rest.head? = some '+' ∨ rest.head? = some '-' then rest.tail else rest
    if ds ≠ [] ∧ ds.all Char.isDigit then some (esign * (digitsToNat ds : ℤ))
    else none
  else none

/-- Scaling of a rational by a power of ten (the exponent part of a parsed
number literal). -/
def applyPow10 (v : ℚ) (e : ℤ) : ℚ :=
  if 0 ≤ e then rMul v (mkRat ((10 : ℕ) ^ e.toNat : ℕ) 1)
  else rDiv v (mkRat ((10 : ℕ) ^ (-e).toNat : ℕ) 1)

/-- Semantics of the JavaScript `Number(...)` conversion on a whitespace-free
string, restricted to decimal literals: optional sign, integer digits,
optional fraction, optional exponent. Hexadecimal/octal/binary literals and
the `Infinity` forms are not modelled: `Infinity` would in any case be
rejected by the `Number.isFinite` guard of `parsePolishNumber`, and the cell
texts the service parses are decimal. Values are exact rationals (IEEE-754
rounding abstracted). `none` corresponds to NaN. -/
def jsNumber (s : String) : Option ℚ :=
  if s.data = [] then some 0
  else
    let cs := s.data
    let sgn : ℤ := if cs.head? = some '-' then -1 else 1
    let rest := if cs.head? = some '+' ∨ cs.head? = some '-' then cs.tail else cs
    let ip := rest.takeWhile Char.isDigit
    let r1 := rest.dropWhile Char.isDigit
    if r1.head? = some '.' then
      let r2 := r1.tail
      let fp := r2.takeWhile Char.isDigit
      let r3 := r2.dropWhile Char.isDigit
      if ip = [] ∧ fp = [] then none
      else
        (parseNumExponent r3).map (fun e =>
          applyPow10
            (mkRat (sgn * ((digitsToNat ip * 10 ^ fp.length + digitsToNat fp : ℕ) : ℤ))
              ((10 : ℕ) ^ fp.length)) e)
    else
      if ip = [] then none
      else
        (parseNumExponent r1).map (fun e =>
          applyPow10 (mkRat (sgn * (digitsToNat ip : ℤ)) 1) e)

/-- Separator normalization of `parsePolishNumber` applied to the
whitespace-stripped text: with both ',' and '.' present every '.' is removed
and the first ',' becomes '.', with only ',' the first ',' becomes '.'; the
result goes to `Number(...)`. -/
def normalizeSeparatorsAndParse (ws : String) : Option ℚ :=
  let normalized :=
    if ws.data.contains ',' && ws.data.contains '.' then
      (⟨replaceFirstChar (ws.data.filter (fun c => c ≠ '.')) ',' '.'⟩ : String)
    else if ws.data.contains ',' then
      (⟨replaceFirstChar ws.data ',' '.'⟩ : String)
    else ws
  jsNumber normalized

/-- Model of `ExcelService.parsePolishNumber` (excel.service.ts:1913-1934).
The `string | null | undefined` input type collapses to `String`: the falsy
inputs `null`/`undefined`/`""` are represented by `""`. The separator logic
on the whitespace-stripped text lives in `normalizeSeparatorsAndParse`. -/
def parsePolishNumber (rawValue : String) : Option ℚ :=
  if rawValue = "" then none
  else
    let trimmed := jsTrim rawValue
    if trimmed = "" then none
    else normalizeSeparatorsAndParse (stripJsWhitespace trimmed)

/-- Tolerance constant `VALIDATION_TOLERANCE = 0.05` (excel.service.ts:165). -/
def VALIDATION_TOLERANCE : ℚ := mkRat 1 20

/-- Model of `ExcelService.roundTo2` (excel.service.ts:1909-1911):
`Math.round(value * 100) / 100`, where `Math.round(x) = ⌊x + 0.5⌋`. -/
def roundTo2 (value : ℚ) : ℚ :=
  mkRat (Rat.floor (rAdd (rMul value (mkRat 100 1)) (mkRat 1 2))) 100



/-! ### Dates

The service relies on the host `Date` object for three things: validating a
Polish-format day/month/year, `Date.parse` of normalized `YYYY-MM-DDT00:00:00Z`
strings, and `Date.UTC`. These are modelled with exact proleptic-Gregorian
calendar arithmetic. -/

/-- Gregorian leap-year predicate. -/
def isLeapYear (y : ℤ) : Bool :=
  y % 4 == 0 && (y % 100 != 0 || y % 400 == 0)

/-- Number of days of month `m` (1-12) in year `y`. -/
def daysInMonth (y : ℤ) (m : ℕ) : ℕ :=
  if m = 2 then (if isLeapYear y then 29 else 28)
  else if m = 4 ∨ m = 6 ∨ m = 9 ∨ m = 11 then 30
  else 31

/-- Days since the Unix epoch (1970-01-01) of the proleptic-Gregorian date
`y-m-d`, by the standard civil-from-days formula (floor division throughout). -/
def daysFromCivil (y : ℤ) (m d : ℕ) : ℤ :=
  let yAdj := if m ≤ 2 then y - 1 else y
  let era := Int.fdiv yAdj 400
  let yoe := yAdj - era * 400
  let mp : ℤ := ((m : ℤ) + 9) % 12
  let doy := (153 * mp + 2) / 5 + (d : ℤ) - 1
  let doe := yoe * 365 + yoe / 4 - yoe / 100 + doy
  era * 146097 + doe - 719468

/-- Milliseconds per day, the `DAY_MS` constant (excel.service.ts:166). -/
def DAY_MS : ℤ := 86400000

/-- UTC millisecond timestamp of midnight of a civil date. -/
def utcMsOfDate (y : ℤ) (m d : ℕ) : ℤ := daysFromCivil y m d * DAY_MS

/-- Model of `Date.UTC(year, monthIndex, day)` for the in-range month/day
arguments used by `isFullYearCoverage`; years 0-99 are remapped to
`1900+year`, exactly as `Date.UTC` does. -/
def jsDateUTC (y : ℤ) (monthIdx dayOfMonth : ℕ) : ℤ :=
  utcMsOfDate (if 0 ≤ y ∧ y ≤ 99 then y + 1900 else y) (monthIdx + 1) dayOfMonth

/-- Shape test for the `^(\d{4})-(\d{2})-(\d{2})$` regex of `normalizeDate`
(no calendar validation, exactly as in the source). -/
def matchIsoDateShape : List Char → Bool
  | [a, b, c, d, '-', e, f, '-', g, h] =>
    a.isDigit && b.isDigit && c.isDigit && d.isDigit &&
      e.isDigit && f.isDigit && g.isDigit && h.isDigit
  | _ => false

/-- Separator class (dot, slash or dash) of the Polish date regex. -/
def polishDateSep (c : Char) : Bool := c = '.' || c = '/' || c = '-'

/-- Matcher for the Polish date regex of `normalizeDate`: one or two day
digits, a separator (dot, slash or dash), one or two month digits, another
separator, four year digits; returns (day, month, year) digit values. -/
def matchPolishDate (cs : List Char) : Option (ℕ × ℕ × ℕ) :=
  let d1 := cs.takeWhile Char.isDigit
  let r1 := cs.dropWhile Char.isDigit
  if d1.length < 1 ∨ 2 < d1.length then none
  else
    match r1 with
    | s1 :: r2 =>
      if polishDateSep s1 then
        let d2 := r2.takeWhile Char.isDigit
        let r3 := r2.dropWhile Char.isDigit
        if d2.length < 1 ∨ 2 < d2.length then none
        else
          match r3 with
          | s2 :: r4 =>
            if polishDateSep s2 then
              if r4.length = 4 ∧ r4.all Char.isDigit then
                some (digitsToNat d1, digitsToNat d2, digitsToNat r4)
              else none
            else none
          | [] => none
      else none
    | [] => none

/-- Decimal string of `n` left-padded with zeros to width `w`. -/
def padNat (n w : ℕ) : String :=
  let s := toString n
  ⟨List.replicate (w - s.length) '0' ++ s.data⟩

/-- ISO `YYYY-MM-DD` rendering of a civil date (as produced by
`toISOString().slice(0, 10)` for years 0-9999). -/
def isoStringOf (y m d : ℕ) : String :=
  padNat y 4 ++ "-" ++ padNat m 2 ++ "-" ++ padNat d 2

/-- Model of the final fallback of `normalizeDate`, `new Date(trimmed)`, on a
string that is neither in ISO `YYYY-MM-DD` shape nor a valid Polish
`D.M.YYYY` date. ECMA-262 leaves parsing of such strings implementation-
defined; the model treats them as unparseable (`null`), which is how V8
treats the garbage strings reachable here. ISO strings carrying an explicit
time component would actually parse in V8; they cannot occur in the date
cells this service reads. -/
def jsDateFallback (_trimmed : String) : Option String := none

/-- Model of `ExcelService.normalizeDate` (excel.service.ts:1936-1972). The
`rawValue?: string` optional parameter collapses to `String` with `""` for
the falsy inputs. The Polish branch validates the date by constructing
`Date.UTC(year, month-1, day)` and comparing the components back, which
fails for years 0-99 (remapped by `Date.UTC`) and for any field rollover;
this is captured by the explicit range checks. -/
def normalizeDate (rawValue : String) : Option String :=
  if rawValue = "" then none
  else
    let trimmed := jsTrim rawValue
    if trimmed = "" then none
    else if matchIsoDateShape trimmed.data then some trimmed
    else
      match matchPolishDate trimmed.data with
      | some (d, m, y) =>
        if 100 ≤ y ∧ 1 ≤ m ∧ m ≤ 12 ∧ 1 ≤ d ∧ d ≤ daysInMonth y m then
          some (isoStringOf y m d)
        else jsDateFallback trimmed
      | none => jsDateFallback trimmed

/-- Fields of a `YYYY-MM-DD` string. -/
def parseIsoDateFields (s : String) : Option (ℤ × ℕ × ℕ) :=
  match s.data with
  | [a, b, c, d, '-', e, f, '-', g, h] =>
    if [a, b, c, d, e, f, g, h].all Char.isDigit then
      some ((digitsToNat [a, b, c, d] : ℤ), digitsToNat [e, f], digitsToNat [g, h])
    else none
  | _ => none

/-- Model of `Date.parse(`...`T00:00:00Z`)` on a normalized date string:
valid proleptic-Gregorian dates give the UTC millisecond timestamp, anything
else NaN (`none`). -/
def parseIsoToUtcMs (s : String) : Option ℤ :=
  match parseIsoDateFields s with
  | some (y, m, d) =>
    if 1 ≤ m ∧ m ≤ 12 ∧ 1 ≤ d ∧ d ≤ daysInMonth y m then some (utcMsOfDate y m d)
    else none
  | none => none

/-- Model of `ExcelService.toUtcTimestamp` (excel.service.ts:2213-2221). -/
def toUtcTimestamp (rawDate : String) : Option ℤ :=
  (normalizeDate rawDate).bind parseIsoToUtcMs

/-- Model of `ExcelService.getYearFromIsoDate` (excel.service.ts:2223-2231):
`Number(normalized.slice(0, 4))`; every `normalizeDate` output starts with
four digits. -/
def getYearFromIsoDate (rawDate : String) : Option ℤ :=
  (normalizeDate rawDate).map (fun s => (digitsToNat (s.data.take 4) : ℤ))




/-! ### Data model -/

/-- Raw per-metric cell texts of one parsed block (`ParsedExcelMetric`). -/
structure ParsedExcelMetric where
  metric : String
  startValue : String
  endValue : String
  consumption : String
  rate : String
  total : String
deriving DecidableEq

/-- One apartment-period block (`ParsedExcelRecord`). -/
structure ParsedExcelRecord where
  apartment : String
  dateFrom : String
  dateTo : String
  metrics : List ParsedExcelMetric
deriving DecidableEq

/-- Headers plus records of one parsed workbook (`ParsedExcelWorkbook`). -/
structure ParsedExcelWorkbook where
  headers : List String
  recordCount : ℕ
  records : List ParsedExcelRecord
deriving DecidableEq

/-- Derived per-(apartment, period, metric) row (`DetailedSummaryRow`). -/
structure DetailedSummaryRow where
  address : String
  apartment : String
  apartmentFull : String
  dateFrom : String
  dateTo : String
  periodKey : String
  metric : String
  startValue : Option ℚ
  endValue : Option ℚ
  consumptionReported : Option ℚ
  consumptionComputed : Option ℚ
  consumptionDifference : Option ℚ
  consumptionIsValid : Option Bool
  rate : Option ℚ
  reportedTotal : Option ℚ
  computedTotal : Option ℚ
  totalDifference : Option ℚ
  totalIsValid : Option Bool
deriving DecidableEq

/-- The request fields consumed by the modelled functions
(`BuildExcelSummaryDto`); the session id is not modelled, the functions take
the session workbook directly. -/
structure BuildExcelSummaryDto where
  apartment : Option String := none
  dateFrom : Option String := none
  dateTo : Option String := none
  metrics : Option (List String) := none
  includeValidation : Option Bool := none
  includeOnlyMismatches : Option Bool := none
  includeYearlySummary : Option Bool := none
  comparisonMonth : Option ℤ := none
deriving DecidableEq

/-! ### String comparison and apartment splitting -/

/-- Code-unit comparison of JavaScript strings as a negative/zero/positive
number; models both `<`/`>` on strings and `localeCompare` (which the
service applies to labels and ISO date strings; locale tailoring of
`localeCompare` is not modelled). -/
def jsCompareStrings (a b : String) : ℤ :=
  if a.data < b.data then -1 else if a.data = b.data then 0 else 1

/-- Boolean code-unit `<` on JavaScript strings. -/
def jsStrLt (a b : String) : Bool := decide (a.data < b.data)

/-- Result record of `splitApartment`. -/
structure ApartmentParts where
  address : String
  apartment : String
deriving DecidableEq

/-- Model of `ExcelService.splitApartment` (excel.service.ts:2024-2048).
`indexOf("/")` is realised as the length of the longest slash-free prefix. -/
def splitApartment (apartmentValue : String) : ApartmentParts :=
  let trimmed := jsTrim apartmentValue
  if trimmed = "" then ⟨"Brak adresu", "Brak lokalu"⟩
  else
    let pre := trimmed.data.takeWhile (fun c => c ≠ '/')
    if pre.length = trimmed.data.length then ⟨trimmed, trimmed⟩
    else
      let address := jsTrim ⟨pre⟩
      let apartment := jsTrim ⟨trimmed.data.drop (pre.length + 1)⟩
      ⟨if address = "" then trimmed else address,
        if apartment = "" then trimmed else apartment⟩

/-- Leading-integer split performed by the regex of `compareApartments`. -/
def apartmentNumSplit (s : String) : Option (ℕ × String) :=
  let ds := s.data.takeWhile Char.isDigit
  if ds = [] then none else some (digitsToNat ds, ⟨s.data.dropWhile Char.isDigit⟩)

/-- Model of `ExcelService.compareApartments` (excel.service.ts:2007-2022):
numeric-aware comparison; when both labels start with digits the leading
integers are compared first, then the remainders; otherwise plain string
comparison. `parseInt` precision loss on enormous digit strings is not
modelled. -/
def compareApartments (a b : String) : ℤ :=
  match apartmentNumSplit a, apartmentNumSplit b with
  | some pa, some pb =>
    if pa.1 ≠ pb.1 then (pa.1 : ℤ) - (pb.1 : ℤ) else jsCompareStrings pa.2 pb.2
  | _, _ => jsCompareStrings a b

/-! ### Filter & Validation Engine -/

/-- Model of `ExcelService.isRecordInsideRange` (excel.service.ts:1974-1995). -/
def isRecordInsideRange (record : ParsedExcelRecord)
    (rangeFrom rangeTo : Option String) : Bool :=
  match normalizeDate record.dateFrom, normalizeDate record.dateTo with
  | some recordFrom, some recordTo =>
    if rangeFrom.any (fun rf => jsStrLt recordTo rf) then false
    else if rangeTo.any (fun rt => jsStrLt rt recordFrom) then false
    else true
  | _, _ => true

/-- Model of `ExcelService.resolveSelectedMetrics` (excel.service.ts:1832-1841). -/
def resolveSelectedMetrics (requestedMetrics : Option (List String))
    (workbookHeaders : List String) : List String :=
  let selected := ((requestedMetrics.getD []).map jsTrim).filter (fun m => m ≠ "")
  if selected = [] then workbookHeaders else selected

/-- Normalization of the optional apartment filter:
`request.apartment?.trim() || null`. -/
def normalizedApartmentFilter (apartment : Option String) : Option String :=
  match apartment with
  | none => none
  | some s => let t := jsTrim s; if t = "" then none else some t

/-- Model of the per-metric computation inside `ExcelService.buildDetailedRows`
(excel.service.ts:1052-1113): numeric parsing, computed consumption/charge,
rounded differences and the two tolerance checks. -/
def buildMetricDetailedRow (address apartment apartmentFull ndf ndt periodKey : String)
    (metricRow : ParsedExcelMetric) : DetailedSummaryRow :=
  let startValue := parsePolishNumber metricRow.startValue
  let endValue := parsePolishNumber metricRow.endValue
  let consumptionReported := parsePolishNumber metricRow.consumption
  let consumptionComputed :=
    match startValue, endValue with
    | some s, some e => some (roundTo2 (rSub e s))
    | _, _ => none
  let consumptionDifference :=
    match consumptionReported, consumptionComputed with
    | some r, some c => some (roundTo2 (rSub r c))
    | _, _ => none
  let consumptionIsValid :=
    consumptionDifference.map (fun d => decide (rAbs d ≤ VALIDATION_TOLERANCE))
  let rate := parsePolishNumber metricRow.rate
  let reportedTotal := parsePolishNumber metricRow.total
  let computedTotal :=
    match consumptionReported, rate with
    | some c, some r => some (roundTo2 (rMul c r))
    | _, _ => none
  let totalDifference :=
    match reportedTotal, computedTotal with
    | some rt, some ct => some (roundTo2 (rSub rt ct))
    | _, _ => none
  let totalIsValid :=
    totalDifference.map (fun d => decide (rAbs d ≤ VALIDATION_TOLERANCE))
  { address := address, apartment := apartment, apartmentFull := apartmentFull,
    dateFrom := ndf, dateTo := ndt, periodKey := periodKey,
    metric := metricRow.metric, startValue := startValue, endValue := endValue,
    consumptionReported := consumptionReported,
    consumptionComputed := consumptionComputed,
    consumptionDifference := consumptionDifference,
    consumptionIsValid := consumptionIsValid, rate := rate,
    reportedTotal := reportedTotal, computedTotal := computedTotal,
    totalDifference := totalDifference, totalIsValid := totalIsValid }

/-- Model of `ExcelService.buildDetailedRows` (excel.service.ts:1002-1130);
the trace logging is ignored. -/
def buildDetailedRows (request : BuildExcelSummaryDto)
    (parsedWorkbook : ParsedExcelWorkbook) (selectedMetrics : List String) :
    List DetailedSummaryRow :=
  let normalizedApartment := normalizedApartmentFilter request.apartment
  let rangeFrom := request.dateFrom.bind normalizeDate
  let rangeTo := request.dateTo.bind normalizeDate
  let includeOnlyMismatches := request.includeOnlyMismatches.getD false
  parsedWorkbook.records.flatMap (fun record =>
    if normalizedApartment.any (fun a => record.apartment ≠ a) then []
    else if !(isRecordInsideRange record rangeFrom rangeTo) then []
    else
      let ndf := (normalizeDate record.dateFrom).getD (jsTrim record.dateFrom)
      let ndt := (normalizeDate record.dateTo).getD (jsTrim record.dateTo)
      let periodKey := ndf ++ "|" ++ ndt
      let parts := splitApartment record.apartment
      record.metrics.filterMap (fun metricRow =>
        if !(selectedMetrics.contains metricRow.metric) then none
        else
          let row := buildMetricDetailedRow parts.address parts.apartment
            record.apartment ndf ndt periodKey metricRow
          let hasValidationIssue :=
            row.consumptionIsValid == some false || row.totalIsValid == some false
          let hasValueIssue := row.consumptionReported.any (fun c => decide (c ≤ 0))
          if includeOnlyMismatches && !hasValidationIssue && !hasValueIssue then none
          else some row))


/-! ### Summary Aggregator -/

/-- Row shape of the on-screen summary (`ExcelSummaryResult.rows` entries). -/
structure SummaryRow where
  apartment : String
  dateFrom : String
  dateTo : String
  metric : String
  consumption : Option ℚ
  rate : Option ℚ
  reportedTotal : Option ℚ
  computedTotal : Option ℚ
  difference : Option ℚ
  isValid : Option Bool
deriving DecidableEq

/-- Per-metric totals of the on-screen summary. -/
structure MetricTotals where
  metric : String
  rowCount : ℕ
  totalConsumption : ℚ
  reportedTotal : ℚ
  computedTotal : Option ℚ
  difference : Option ℚ
deriving DecidableEq

/-- Echo of the effective request parameters (`ExcelSummaryResult.selected`). -/
structure SelectedParams where
  apartment : Option String
  dateFrom : Option String
  dateTo : Option String
  metrics : List String
  includeValidation : Bool
  includeOnlyMismatches : Bool
deriving DecidableEq

/-- Aggregate counters of the on-screen summary (`ExcelSummaryResult.stats`). -/
structure SummaryStats where
  rowsCount : ℕ
  validRows : ℕ
  invalidRows : ℕ
deriving DecidableEq

/-- Result of `buildSummaryData` (`ExcelSummaryResult`); the echoed upload id
is not modelled. -/
structure ExcelSummaryResult where
  selected : SelectedParams
  stats : SummaryStats
  totalsByMetric : List MetricTotals
  rows : List SummaryRow
deriving DecidableEq

/-- Per-row mapping of `buildSummaryData` (excel.service.ts:936-956),
including the combined validation state. -/
def summaryRowOf (includeValidation : Bool) (row : DetailedSummaryRow) : SummaryRow :=
  let totalValidationState : Option Bool :=
    if row.totalIsValid = some false ∨ row.consumptionIsValid = some false then some false
    else if row.totalIsValid = some true then some true
    else none
  { apartment := row.apartmentFull, dateFrom := row.dateFrom, dateTo := row.dateTo,
    metric := row.metric, consumption := row.consumptionReported, rate := row.rate,
    reportedTotal := row.reportedTotal,
    computedTotal := if includeValidation then row.computedTotal else none,
    difference := if includeValidation then row.totalDifference else none,
    isValid := if includeValidation then totalValidationState else none }

/-- Reduction `(sum, x) => sum + (x ?? 0)` used by the aggregations. -/
def sumOpt (xs : List (Option ℚ)) : ℚ :=
  xs.foldl (fun acc x => rAdd acc (x.getD 0)) 0

/-- Model of `ExcelService.buildSummaryData` (excel.service.ts:916-1000),
taken after the session lookup: it receives the session's workbook directly. -/
def buildSummaryData (request : BuildExcelSummaryDto)
    (parsedWorkbook : ParsedExcelWorkbook) : ExcelSummaryResult :=
  let selectedMetrics := resolveSelectedMetrics request.metrics parsedWorkbook.headers
  let includeValidation := request.includeValidation.getD true
  let includeOnlyMismatches := request.includeOnlyMismatches.getD false
  let detailedRows := buildDetailedRows request parsedWorkbook selectedMetrics
  let rows := detailedRows.map (summaryRowOf includeValidation)
  let totalsByMetric := selectedMetrics.map (fun metricName =>
    let metricRows := rows.filter (fun row => row.metric == metricName)
    let reportedTotal := roundTo2 (sumOpt (metricRows.map (·.reportedTotal)))
    let computedTotal := roundTo2 (sumOpt (metricRows.map (·.computedTotal)))
    let difference :=
      if includeValidation then some (roundTo2 (rSub reportedTotal computedTotal))
      else none
    ({ metric := metricName, rowCount := metricRows.length,
       totalConsumption := roundTo2 (sumOpt (metricRows.map (·.consumption))),
       reportedTotal := reportedTotal,
       computedTotal := if includeValidation then some computedTotal else none,
       difference := difference } : MetricTotals))
  { selected := { apartment := normalizedApartmentFilter request.apartment,
                  dateFrom := request.dateFrom.bind normalizeDate,
                  dateTo := request.dateTo.bind normalizeDate,
                  metrics := selectedMetrics,
                  includeValidation := includeValidation,
                  includeOnlyMismatches := includeOnlyMismatches },
    stats := { rowsCount := rows.length,
               validRows := (rows.filter (fun row => row.isValid == some true)).length,
               invalidRows := (rows.filter (fun row => row.isValid == some false)).length },
    totalsByMetric := totalsByMetric, rows := rows }

/-! ### Annual Rollup Builder -/

/-- Cell style tags of the export payload (`ExportCellStyle`). -/
inductive ExportCellStyle where
  | ok
  | error
  | zero
  | negative
  | warning
deriving DecidableEq

/-- JavaScript cell value: string, number or null. -/
inductive JsValue where
  | str (s : String)
  | num (q : ℚ)
  | null
deriving DecidableEq

/-- Model of `ExcelService.resolveConsumptionValueStyle`
(excel.service.ts:1783-1799). -/
def resolveConsumptionValueStyle (value : Option ℚ) : Option ExportCellStyle :=
  match value with
  | none => none
  | some v =>
    if v < 0 then some .negative
    else if v = 0 then some .zero
    else none

/-- Row of the yearly summary section (`ExportYearlyRow`). -/
structure ExportYearlyRow where
  values : List JsValue
  styles : List (Option ExportCellStyle)
deriving DecidableEq

/-- Accumulated group of `buildYearlyExportRows` (one per key in `groupMap`). -/
structure YearlyGroup where
  address : String
  apartment : String
  metric : String
  year : ℤ
  rows : List DetailedSummaryRow
  intervals : List (ℤ × ℤ)
deriving DecidableEq

/-- Group key string, as the template literal of the source builds it. -/
def yearlyKeyOf (address apartment metric : String) (year : ℤ) : String :=
  address ++ "|" ++ apartment ++ "|" ++ metric ++ "|" ++ toString year

/-- Insertion-ordered upsert mirroring `groupMap.get`/`push`/`set`. -/
def insertYearlyRow (key : String) (row : DetailedSummaryRow) (iv : ℤ × ℤ)
    (address apartment metric : String) (year : ℤ) :
    List (String × YearlyGroup) → List (String × YearlyGroup)
  | [] => [(key, { address := address, apartment := apartment, metric := metric,
                   year := year, rows := [row], intervals := [iv] })]
  | (k, g) :: rest =>
    if k = key then
      (k, { g with rows := g.rows ++ [row], intervals := g.intervals ++ [iv] }) :: rest
    else (k, g) :: insertYearlyRow key row iv address apartment metric year rest

/-- One iteration of the grouping loop of `buildYearlyExportRows`
(excel.service.ts:1328-1360): rows whose period does not lie inside a single
year (or whose dates do not yield timestamps) are skipped. -/
def yearlyGroupStep (groups : List (String × YearlyGroup))
    (row : DetailedSummaryRow) : List (String × YearlyGroup) :=
  match toUtcTimestamp row.dateFrom, toUtcTimestamp row.dateTo,
    getYearFromIsoDate row.dateFrom, getYearFromIsoDate row.dateTo with
  | some tsFrom, some tsTo, some yearFrom, some yearTo =>
    if yearFrom ≠ yearTo then groups
    else insertYearlyRow (yearlyKeyOf row.address row.apartment row.metric yearFrom)
      row (tsFrom, tsTo) row.address row.apartment row.metric yearFrom groups
  | _, _, _, _ => groups

/-- Grouping loop of `buildYearlyExportRows` (excel.service.ts:1328-1360). -/
def buildYearlyGroups (detailedRows : List DetailedSummaryRow) :
    List (String × YearlyGroup) :=
  detailedRows.foldl yearlyGroupStep []

/-- JavaScript `Math.max` on integers. -/
def jsMaxInt (a b : ℤ) : ℤ := if a ≤ b then b else a

/-- JavaScript `Math.min` on integers. -/
def jsMinInt (a b : ℤ) : ℤ := if a ≤ b then a else b

/-- Merge loop of `isFullYearCoverage` (excel.service.ts:2256-2269): the
accumulating interval absorbs the next one when it starts at most one day
after the accumulated end. -/
def mergeClippedIntervals : (ℤ × ℤ) → List (ℤ × ℤ) → List (ℤ × ℤ)
  | cur, [] => [cur]
  | cur, next :: rest =>
    if next.1 ≤ cur.2 + DAY_MS then
      mergeClippedIntervals (cur.1, jsMaxInt cur.2 next.2) rest
    else cur :: mergeClippedIntervals next rest

/-- Model of `ExcelService.isFullYearCoverage` (excel.service.ts:2233-2276). -/
def isFullYearCoverage (intervals : List (ℤ × ℤ)) (year : ℤ) : Bool :=
  if intervals = [] then false
  else
    let yearStart := jsDateUTC year 0 1
    let yearEnd := jsDateUTC year 11 31
    let normalizedIntervals :=
      List.insertionSort (fun a b : ℤ × ℤ => a.1 ≤ b.1)
        ((intervals.map (fun iv => (jsMaxInt iv.1 yearStart, jsMinInt iv.2 yearEnd))).filter
          (fun iv => decide (iv.1 ≤ iv.2)))
    match normalizedIntervals with
    | [] => false
    | first :: rest =>
      match mergeClippedIntervals first rest with
      | [m] => decide (m.1 ≤ yearStart ∧ yearEnd ≤ m.2)
      | _ => false

/-- Sort comparator of `buildYearlyExportRows` (excel.service.ts:1363-1380). -/
def yearlyGroupCmp (a b : YearlyGroup) : ℤ :=
  let addressCompare := jsCompareStrings a.address b.address
  if addressCompare ≠ 0 then addressCompare
  else
    let apartmentCompare := compareApartments a.apartment b.apartment
    if apartmentCompare ≠ 0 then apartmentCompare
    else
      let metricCompare := jsCompareStrings a.metric b.metric
      if metricCompare ≠ 0 then metricCompare
      else a.year - b.year

/-- Model of `ExcelService.buildYearlyExportRows` (excel.service.ts:1313-1442). -/
def buildYearlyExportRows (detailedRows : List DetailedSummaryRow) :
    List ExportYearlyRow :=
  let groups := (buildYearlyGroups detailedRows).map Prod.snd
  let sorted := List.insertionSort (fun a b => yearlyGroupCmp a b ≤ 0) groups
  (sorted.filter (fun g => isFullYearCoverage g.intervals g.year)).map (fun group =>
    let totalConsumptionReported := roundTo2 (sumOpt (group.rows.map (·.consumptionReported)))
    let totalConsumptionComputed := roundTo2 (sumOpt (group.rows.map (·.consumptionComputed)))
    let totalReported := roundTo2 (sumOpt (group.rows.map (·.reportedTotal)))
    let totalComputed := roundTo2 (sumOpt (group.rows.map (·.computedTotal)))
    let difference := roundTo2 (rSub totalReported totalComputed)
    let hasIssues :=
      group.rows.any (fun row =>
        row.consumptionIsValid == some false || row.totalIsValid == some false ||
          row.consumptionReported.any (fun c => decide (c ≤ 0))) ||
        decide (VALIDATION_TOLERANCE < rAbs difference)
    let yearlyStatus := if hasIssues then "Wymaga sprawdzenia" else "OK"
    ({ values := [.str group.address, .str group.apartment, .str group.metric,
         .num (mkRat group.year 1), .num totalConsumptionReported,
         .num totalConsumptionComputed, .num totalReported, .num totalComputed,
         .num difference, .num (mkRat group.rows.length 1), .str yearlyStatus],
       styles := [none, none, none, none,
         resolveConsumptionValueStyle (some totalConsumptionReported),
         resolveConsumptionValueStyle (some totalConsumptionComputed), none, none,
         some (if rAbs difference ≤ VALIDATION_TOLERANCE then .ok else .error), none,
         some (if hasIssues then .error else .ok)] } : ExportYearlyRow))


/-! ### Year-over-Year Comparison Builder -/

/-- Period entry accumulated by `buildYearOverYearExportRows`; the source
field `end` is renamed `stop` (`end` is a Lean keyword). -/
structure YoYPeriod where
  start : ℚ
  stop : ℚ
  fromTimestamp : ℤ
  toTimestamp : ℤ
  toMonth : ℤ
deriving DecidableEq

/-- Output row of the year-over-year report (`YearOverYearExportRow`). -/
structure YearOverYearExportRow where
  address : String
  apartment : String
  metric : String
  baseYear : ℤ
  compareYear : ℤ
  baseConsumption : ℚ
  compareConsumption : ℚ
  difference : ℚ
  changePercent : Option ℚ
  trend : String
  note : Option String
deriving DecidableEq

/-- Group of one (address, apartment, metric) key with periods per year. -/
structure YoYGroup where
  address : String
  apartment : String
  metric : String
  periodsByYear : List (ℤ × List YoYPeriod)
deriving DecidableEq

/-- Insertion-ordered upsert of the per-year period list
(`periodsByYear.get(year) ?? []` followed by `push` and `set`). -/
def upsertYearPeriods (year : ℤ) (p : YoYPeriod) :
    List (ℤ × List YoYPeriod) → List (ℤ × List YoYPeriod)
  | [] => [(year, [p])]
  | (y, ps) :: rest =>
    if y = year then (y, ps ++ [p]) :: rest
    else (y, ps) :: upsertYearPeriods year p rest

/-- Insertion-ordered upsert of the group map of
`buildYearOverYearExportRows`. -/
def insertYoYPeriod (key : String) (address apartment metric : String) (year : ℤ)
    (p : YoYPeriod) : List (String × YoYGroup) → List (String × YoYGroup)
  | [] => [(key, { address := address, apartment := apartment, metric := metric,
                   periodsByYear := [(year, [p])] })]
  | (k, g) :: rest =>
    if k = key then
      (k, { g with periodsByYear := upsertYearPeriods year p g.periodsByYear }) :: rest
    else (k, g) :: insertYoYPeriod key address apartment metric year p rest

/-- Grouping loop of `buildYearOverYearExportRows`
(excel.service.ts:1467-1524): rows without both readings, or whose dates do
not normalize to timestamps, are skipped. The `Number.isFinite(year)` guard
of the source is omitted: the year slice of a normalized date is always four
digits, hence finite. -/
def buildYoYGroups (detailedRows : List DetailedSummaryRow) :
    List (String × YoYGroup) :=
  detailedRows.foldl (fun groups row =>
    match row.startValue, row.endValue with
    | some sv, some ev =>
      match normalizeDate row.dateFrom, normalizeDate row.dateTo with
      | some ndf, some ndt =>
        match toUtcTimestamp ndf, toUtcTimestamp ndt with
        | some fromTs, some toTs =>
          let year := (digitsToNat (ndt.data.take 4) : ℤ)
          let toMonth := (digitsToNat ((ndt.data.drop 5).take 2) : ℤ)
          insertYoYPeriod (row.address ++ "|" ++ row.apartment ++ "|" ++ row.metric)
            row.address row.apartment row.metric year
            { start := sv, stop := ev, fromTimestamp := fromTs,
              toTimestamp := toTs, toMonth := toMonth } groups
        | _, _ => groups
      | _, _ => groups
    | _, _ => groups) []

/-- Sort comparator of the per-year period sort (excel.service.ts:1538-1545). -/
def yoyPeriodCmp (a b : YoYPeriod) : ℤ :=
  if a.fromTimestamp - b.fromTimestamp ≠ 0 then a.fromTimestamp - b.fromTimestamp
  else a.toTimestamp - b.toTimestamp

/-- Chronological sort of a year's periods. -/
def sortYoYPeriods (periods : List YoYPeriod) : List YoYPeriod :=
  List.insertionSort (fun a b => yoyPeriodCmp a b ≤ 0) periods

/-- Continuity scan of consecutive periods (excel.service.ts:1554-1563). -/
def hasYoYContinuityIssue : List YoYPeriod → Bool
  | a :: b :: rest =>
    decide (VALIDATION_TOLERANCE < rAbs (rSub a.stop b.start)) ||
      hasYoYContinuityIssue (b :: rest)
  | _ => false

/-- Annual consumption plus note of one year (`annualConsumptionByYear`
entry, excel.service.ts:1533-1586); `none` when the year has no periods. -/
structure AnnualData where
  consumption : ℚ
  note : Option String
deriving DecidableEq

/-- Per-year computation of `buildYearOverYearExportRows`
(excel.service.ts:1533-1586). -/
def yoyYearData (comparisonMonth year : ℤ) (periods : List YoYPeriod) :
    Option AnnualData :=
  match sortYoYPeriods periods with
  | [] => none
  | first :: restSorted =>
    let sorted := first :: restSorted
    let last := sorted.getLastD first
    let annualConsumption := roundTo2 (rSub last.stop first.start)
    let summedPeriods :=
      roundTo2 (sorted.foldl (fun acc p => rAdd acc (rSub p.stop p.start)) 0)
    let noteParts :=
      (if last.toMonth ≠ comparisonMonth then
        ["Rok " ++ toString year ++ ": brak zamkniecia w miesiacu " ++
          toString comparisonMonth ++ "."] else []) ++
      (if hasYoYContinuityIssue sorted then
        ["Rok " ++ toString year ++ ": niespojna ciaglosc odczytow."] else []) ++
      (if VALIDATION_TOLERANCE < rAbs (rSub summedPeriods annualConsumption) then
        ["Rok " ++ toString year ++
          ": suma okresow rozni sie od rocznej roznicy odczytow."] else [])
    some { consumption := annualConsumption,
           note := if noteParts = [] then none
                   else some (String.intercalate " " noteParts) }

/-- Association-list lookup for the per-year annual data. -/
def lookupYear (xs : List (ℤ × AnnualData)) (year : ℤ) : Option AnnualData :=
  (xs.find? (fun e => e.1 == year)).map Prod.snd

/-- Comparison loop of one group (excel.service.ts:1588-1647): pairs every
year having annual data with its predecessor year. -/
def yoyGroupRows (comparisonMonth : ℤ) (g : YoYGroup) :
    List YearOverYearExportRow :=
  let annualByYear : List (ℤ × AnnualData) :=
    g.periodsByYear.filterMap (fun e =>
      (yoyYearData comparisonMonth e.1 e.2).map (fun d => (e.1, d)))
  let years := List.insertionSort (fun a b : ℤ => a ≤ b) (annualByYear.map Prod.fst)
  if years.length < 2 then []
  else
    years.filterMap (fun compareYear =>
      let baseYear := compareYear - 1
      match lookupYear annualByYear baseYear, lookupYear annualByYear compareYear with
      | some baseYearData, some compareYearData =>
        let baseConsumption := baseYearData.consumption
        let compareConsumption := compareYearData.consumption
        let difference := roundTo2 (rSub compareConsumption baseConsumption)
        let changePercent :=
          if rAbs baseConsumption ≤ VALIDATION_TOLERANCE then none
          else some (roundTo2 (rMul (rDiv difference baseConsumption) (mkRat 100 1)))
        let trend :=
          if rAbs difference ≤ VALIDATION_TOLERANCE then "Bez zmian"
          else if 0 < difference then "Wzrost" else "Spadek"
        let noteParts :=
          (if baseConsumption < 0 ∨ compareConsumption < 0 then
            ["Sprawdz odczyty: ujemne zuzycie roczne."] else []) ++
          (if changePercent = none then
            ["Brak procentu: zuzycie bazowe bliskie zera."] else []) ++
          (baseYearData.note.elim [] (fun n => [n])) ++
          (compareYearData.note.elim [] (fun n => [n]))
        some { address := g.address, apartment := g.apartment, metric := g.metric,
               baseYear := baseYear, compareYear := compareYear,
               baseConsumption := baseConsumption,
               compareConsumption := compareConsumption, difference := difference,
               changePercent := changePercent, trend := trend,
               note := if noteParts = [] then none
                       else some (String.intercalate " " noteParts) }
      | _, _ => none)

/-- Final sort comparator of the year-over-year rows
(excel.service.ts:1650-1667). -/
def yoyRowCmp (a b : YearOverYearExportRow) : ℤ :=
  let addressCompare := jsCompareStrings a.address b.address
  if addressCompare ≠ 0 then addressCompare
  else
    let apartmentCompare := compareApartments a.apartment b.apartment
    if apartmentCompare ≠ 0 then apartmentCompare
    else
      let metricCompare := jsCompareStrings a.metric b.metric
      if metricCompare ≠ 0 then metricCompare
      else a.compareYear - b.compareYear

/-- Model of `ExcelService.buildYearOverYearExportRows`
(excel.service.ts:1444-1668). -/
def buildYearOverYearExportRows (detailedRows : List DetailedSummaryRow)
    (comparisonMonth : ℤ) : List YearOverYearExportRow :=
  let groups := (buildYoYGroups detailedRows).map Prod.snd
  let result := groups.flatMap (yoyGroupRows comparisonMonth)
  List.insertionSort (fun a b => yoyRowCmp a b ≤ 0) result


/-! ### Pivot Export Builder -/

/-- Export column keys (`ExportColumnKey`). -/
inductive ExportColumnKey where
  | previousReading
  | currentReading
  | consumptionReported
  | consumptionComputed
  | consumptionStatus
  | rate
  | reportedTotal
  | computedTotal
  | totalStatus
deriving DecidableEq

/-- Column labels (`EXPORT_COLUMN_LABELS`, excel.service.ts:174-184). -/
def exportColumnLabel : ExportColumnKey → String
  | .previousReading => "Odczyt poprzedni"
  | .currentReading => "Odczyt końcowy"
  | .consumptionReported => "Zużycie"
  | .consumptionComputed => "Zużycie wyliczone"
  | .consumptionStatus => "Status zużycia"
  | .rate => "Stawka"
  | .reportedTotal => "Suma raportowana"
  | .computedTotal => "Suma wyliczona"
  | .totalStatus => "Status sumy"

/-- Default column set (`DEFAULT_EXPORT_COLUMNS`, excel.service.ts:186-196). -/
def DEFAULT_EXPORT_COLUMNS : List ExportColumnKey :=
  [.previousReading, .currentReading, .consumptionReported, .consumptionComputed,
   .consumptionStatus, .rate, .reportedTotal, .computedTotal, .totalStatus]

/-- String-to-key parsing used by `isExportColumnKey`. -/
def exportColumnKeyOfString : String → Option ExportColumnKey
  | "previousReading" => some .previousReading
  | "currentReading" => some .currentReading
  | "consumptionReported" => some .consumptionReported
  | "consumptionComputed" => some .consumptionComputed
  | "consumptionStatus" => some .consumptionStatus
  | "rate" => some .rate
  | "reportedTotal" => some .reportedTotal
  | "computedTotal" => some .computedTotal
  | "totalStatus" => some .totalStatus
  | _ => none

/-- First-occurrence deduplication, the order-preserving semantics of
`Array.from(new Set(...))`. -/
def firstOccurrenceDedup (xs : List String) : List String :=
  xs.foldl (fun acc x => if acc.contains x then acc else acc ++ [x]) []

/-- Order-preserving dedup for export column keys. -/
def dedupColumns (xs : List ExportColumnKey) : List ExportColumnKey :=
  xs.foldl (fun acc x => if acc.contains x then acc else acc ++ [x]) []

/-- Model of `ExcelService.resolveExportColumns` (excel.service.ts:1815-1826). -/
def resolveExportColumns (requestedColumns : Option (List String)) :
    List ExportColumnKey :=
  let picked := (requestedColumns.getD []).filterMap
    (fun v => exportColumnKeyOfString (jsTrim v))
  let uniquePicked := dedupColumns picked
  if uniquePicked = [] then DEFAULT_EXPORT_COLUMNS else uniquePicked

/-- Styled cell of the export table (`ExportCell`). -/
structure ExportCell where
  value : JsValue
  style : Option ExportCellStyle
deriving DecidableEq

/-- Row of the export table (`ExportTableRow`). -/
structure ExportTableRow where
  address : String
  apartment : String
  metric : String
  cells : List ExportCell
deriving DecidableEq

/-- Distinct period of the filtered rows (`periodMap` entry). -/
structure PeriodEntry where
  key : String
  dateFrom : String
  dateTo : String
  label : String
deriving DecidableEq

/-- First-appearance collection of the distinct periods
(excel.service.ts:1144-1157). -/
def collectPeriods (detailedRows : List DetailedSummaryRow) : List PeriodEntry :=
  detailedRows.foldl (fun acc row =>
    if acc.any (fun p => p.key == row.periodKey) then acc
    else acc ++ [{ key := row.periodKey, dateFrom := row.dateFrom,
                   dateTo := row.dateTo,
                   label := row.dateFrom ++ " - " ++ row.dateTo }]) []

/-- Period sort comparator (excel.service.ts:1159-1166). -/
def periodCmp (a b : PeriodEntry) : ℤ :=
  let fromCompare := jsCompareStrings a.dateFrom b.dateFrom
  if fromCompare ≠ 0 then fromCompare else jsCompareStrings a.dateTo b.dateTo

/-- Grouped export row under construction (`groupedRows` entry). -/
structure ExportGroup where
  address : String
  apartment : String
  metric : String
  byPeriod : List (String × DetailedSummaryRow)
deriving DecidableEq

/-- Replacement upsert of `byPeriod.set` (keeps the original position). -/
def upsertByPeriod (key : String) (row : DetailedSummaryRow) :
    List (String × DetailedSummaryRow) → List (String × DetailedSummaryRow)
  | [] => [(key, row)]
  | (k, r) :: rest =>
    if k = key then (key, row) :: rest
    else (k, r) :: upsertByPeriod key row rest

/-- Insertion-ordered upsert of the group map (excel.service.ts:1189-1203). -/
def insertExportGroup (key : String) (row : DetailedSummaryRow) :
    List (String × ExportGroup) → List (String × ExportGroup)
  | [] => [(key, { address := row.address, apartment := row.apartment,
                   metric := row.metric,
                   byPeriod := [(row.periodKey, row)] })]
  | (k, g) :: rest =>
    if k = key then
      (k, { g with byPeriod := upsertByPeriod row.periodKey row g.byPeriod }) :: rest
    else (k, g) :: insertExportGroup key row rest

/-- Grouping of the detailed rows by (address, apartment, metric). -/
def buildExportGroups (detailedRows : List DetailedSummaryRow) :
    List (String × ExportGroup) :=
  detailedRows.foldl (fun groups row =>
    insertExportGroup (row.address ++ "|" ++ row.apartment ++ "|" ++ row.metric)
      row groups) []

/-- Export row sort comparator (excel.service.ts:1206-1218). -/
def exportGroupCmp (a b : ExportGroup) : ℤ :=
  let addressCompare := jsCompareStrings a.address b.address
  if addressCompare ≠ 0 then addressCompare
  else
    let apartmentCompare := compareApartments a.apartment b.apartment
    if apartmentCompare ≠ 0 then apartmentCompare
    else jsCompareStrings a.metric b.metric

/-- Option-to-JsValue conversion for numeric cells. -/
def jsValueOfOpt (q : Option ℚ) : JsValue :=
  match q with
  | some v => .num v
  | none => .null

/-- Model of `ExcelService.resolveConsumptionStatusCell`
(excel.service.ts:1708-1729). -/
def resolveConsumptionStatusCell (row : DetailedSummaryRow) : ExportCell :=
  match resolveConsumptionValueStyle row.consumptionReported with
  | some .negative => { value := .str "Ujemne", style := some .negative }
  | some .zero => { value := .str "Zero", style := some .zero }
  | _ =>
    if row.consumptionIsValid = some true then { value := .str "OK", style := some .ok }
    else if row.consumptionIsValid = some false then
      { value := .str "Błąd", style := some .error }
    else { value := .str "N/D", style := some .warning }

/-- Model of `ExcelService.resolveTotalStatusCell`
(excel.service.ts:1731-1741). -/
def resolveTotalStatusCell (row : DetailedSummaryRow) : ExportCell :=
  if row.totalIsValid = some true then { value := .str "OK", style := some .ok }
  else if row.totalIsValid = some false then
    { value := .str "Błąd", style := some .error }
  else { value := .str "N/D", style := some .warning }

/-- Model of `ExcelService.resolveDetailedExportCell`
(excel.service.ts:1670-1706). -/
def resolveDetailedExportCell (row : Option DetailedSummaryRow)
    (columnKey : ExportColumnKey) : ExportCell :=
  match row with
  | none => { value := .null, style := none }
  | some row =>
    match columnKey with
    | .previousReading => { value := jsValueOfOpt row.startValue, style := none }
    | .currentReading => { value := jsValueOfOpt row.endValue, style := none }
    | .consumptionReported =>
      { value := jsValueOfOpt row.consumptionReported,
        style := resolveConsumptionValueStyle row.consumptionReported }
    | .consumptionComputed =>
      { value := jsValueOfOpt row.consumptionComputed,
        style := resolveConsumptionValueStyle row.consumptionComputed }
    | .consumptionStatus => resolveConsumptionStatusCell row
    | .rate => { value := jsValueOfOpt row.rate, style := none }
    | .reportedTotal => { value := jsValueOfOpt row.reportedTotal, style := none }
    | .computedTotal => { value := jsValueOfOpt row.computedTotal, style := none }
    | .totalStatus => resolveTotalStatusCell row

/-- Append-upsert of the per-key rate lists (excel.service.ts:1747-1759). -/
def upsertRate (key : String) (rate : ℚ) :
    List (String × List ℚ) → List (String × List ℚ)
  | [] => [(key, [rate])]
  | (k, rs) :: rest =>
    if k = key then (k, rs ++ [rate]) :: rest
    else (k, rs) :: upsertRate key rate rest

/-- Rates of the filtered rows grouped by metric and period. -/
def ratesByKeyOf (detailedRows : List DetailedSummaryRow) :
    List (String × List ℚ) :=
  detailedRows.foldl (fun acc row =>
    match row.rate with
    | none => acc
    | some rate => upsertRate (row.metric ++ "|" ++ row.periodKey) rate acc) []

/-- Count-upsert of the frequency map (excel.service.ts:1763-1766). -/
def upsertCount (rate : ℚ) : List (ℚ × ℕ) → List (ℚ × ℕ)
  | [] => [(rate, 1)]
  | (r, n) :: rest =>
    if r = rate then (r, n + 1) :: rest
    else (r, n) :: upsertCount rate rest

/-- Mode selection of one key's rates (excel.service.ts:1762-1777): most
frequent rate, first-seen rate winning ties. -/
def pickDominantRate (rates : List ℚ) : ℚ :=
  let frequency := rates.foldl (fun freq rate => upsertCount rate freq) []
  (frequency.foldl (fun best entry => if best.2 < entry.2 then entry else best)
    (rates.headD 0, 0)).1

/-- Model of `ExcelService.buildDominantRateMap` (excel.service.ts:1743-1781). -/
def buildDominantRateMap (detailedRows : List DetailedSummaryRow) :
    List (String × ℚ) :=
  (ratesByKeyOf detailedRows).map (fun e => (e.1, pickDominantRate e.2))

/-- Association lookup of the dominant-rate map. -/
def lookupDominant (m : List (String × ℚ)) (key : String) : Option ℚ :=
  (m.find? (fun e => e.1 == key)).map Prod.snd

/-- Outlier scan of `buildExportPayload` (excel.service.ts:1249-1274): flags
the (rowIdx, cellOffset) pairs of numeric rate cells that differ from the
dominant rate of their metric+period by more than the tolerance. The source
accumulates them in a `Set` of `"row:cell"` keys; each pair is visited once,
so an ordered pair list is a faithful model. -/
def computeRateOutliers (rows : List ExportTableRow) (periods : List PeriodEntry)
    (exportColumns : List ExportColumnKey) (dominantRateMap : List (String × ℚ)) :
    List (ℕ × ℕ) :=
  match exportColumns.findIdx? (fun c => c == .rate) with
  | none => []
  | some rateColumnIndex =>
    (List.range rows.length).flatMap (fun rowIdx =>
      match rows[rowIdx]? with
      | none => []
      | some exportRow =>
        (List.range periods.length).filterMap (fun periodIdx =>
          let cellOffset := periodIdx * exportColumns.length + rateColumnIndex
          match exportRow.cells[cellOffset]? with
          | none => none
          | some rateCell =>
            match rateCell.value with
            | .num v =>
              match periods[periodIdx]? with
              | none => none
              | some period =>
                match lookupDominant dominantRateMap
                  (exportRow.metric ++ "|" ++ period.key) with
                | some dominant =>
                  if VALIDATION_TOLERANCE < rAbs (rSub v dominant) then
                    some (rowIdx, cellOffset)
                  else none
                | none => none
            | _ => none))

/-- ASCII lowercase conversion modelling `toLowerCase` (the service compares
against the all-lowercase literal "opłata stała"; the non-ASCII letters of
realistic metric names are already lowercase, so the Unicode case table of
JavaScript is not needed). -/
def jsToLowerCase (s : String) : String := ⟨s.data.map Char.toLower⟩

/-- Addition-upsert of the fixed-fee sums (excel.service.ts:1277-1283). -/
def upsertAddFee (key : String) (v : ℚ) :
    List (String × ℚ) → List (String × ℚ)
  | [] => [(key, v)]
  | (k, x) :: rest =>
    if k = key then (k, rAdd x v) :: rest
    else (k, x) :: upsertAddFee key v rest

/-- Fixed-fee rollup: sums `reportedTotal` of rows whose metric lowercases to
"opłata stała", per period key. -/
def buildFixedFeeSummary (detailedRows : List DetailedSummaryRow) :
    List (String × ℚ) :=
  detailedRows.foldl (fun acc row =>
    match row.reportedTotal with
    | some rt =>
      if jsToLowerCase row.metric = "opłata stała" then
        upsertAddFee row.periodKey rt acc
      else acc
    | none => acc) []

/-- Yearly section headers (excel.service.ts:1233-1245). -/
def yearlyHeaders : List String :=
  ["Adres", "Lokal", "Metryka", "Rok", "Zużycie", "Zużycie wyliczone",
   "Suma raportowana", "Suma wyliczona", "Różnica sumy", "Liczba okresów",
   "Status roczny"]

/-- Export payload (`ExcelExportPayload`); the `generatedAt` wall-clock
timestamp is not modelled. Periods are (label, columnCount) pairs, the
outlier set is the list of its (rowIdx, cellOffset) members, the fixed-fee
summary the list of its (periodKey, sum) entries. -/
structure ExcelExportPayload where
  headers : List String
  periods : List (String × ℕ)
  columnLabels : List String
  rows : List ExportTableRow
  rateOutliers : List (ℕ × ℕ)
  yearlyHeaders : List String
  yearlyRows : List ExportYearlyRow
  fixedFeeSummary : List (String × ℚ)
deriving DecidableEq

/-- Model of `ExcelService.buildExportPayload` (excel.service.ts:1132-1311);
the trace logging is ignored. -/
def buildExportPayload (detailedRows : List DetailedSummaryRow)
    (exportColumns : List ExportColumnKey) (includeYearlySummary : Bool) :
    ExcelExportPayload :=
  let periods := List.insertionSort (fun a b => periodCmp a b ≤ 0)
    (collectPeriods detailedRows)
  let headers := ["Adres", "Lokal", "Metryka"] ++
    periods.flatMap (fun period =>
      exportColumns.map (fun columnKey =>
        period.label ++ " | " ++ exportColumnLabel columnKey))
  let groups := (buildExportGroups detailedRows).map Prod.snd
  let sortedGroups := List.insertionSort (fun a b => exportGroupCmp a b ≤ 0) groups
  let rows := sortedGroups.map (fun group =>
    ({ address := group.address, apartment := group.apartment,
       metric := group.metric,
       cells := periods.flatMap (fun period =>
         exportColumns.map (fun columnKey =>
           resolveDetailedExportCell
             ((group.byPeriod.find? (fun e => e.1 == period.key)).map Prod.snd)
             columnKey)) } : ExportTableRow))
  let rateOutliers :=
    computeRateOutliers rows periods exportColumns (buildDominantRateMap detailedRows)
  { headers := headers,
    periods := periods.map (fun period => (period.label, exportColumns.length)),
    columnLabels := exportColumns.map exportColumnLabel,
    rows := rows,
    rateOutliers := rateOutliers,
    yearlyHeaders := yearlyHeaders,
    yearlyRows := if includeYearlySummary then buildYearlyExportRows detailedRows else [],
    fixedFeeSummary := buildFixedFeeSummary detailedRows }


/-! ### Multi-Workbook Merger -/

/-- Empty placeholder metric used when aligning records to the union headers. -/
def emptyMetricFor (header : String) : ParsedExcelMetric :=
  { metric := header, startValue := "", endValue := "", consumption := "",
    rate := "", total := "" }

/-- Lookup in the `metricByName` map of `mergeParsedWorkbooks`
(excel.service.ts:1858-1860). `new Map(entries)` keeps the last entry of a
duplicated key, hence the reversed search. -/
def metricByNameLookup (metrics : List ParsedExcelMetric) (header : String) :
    Option ParsedExcelMetric :=
  metrics.reverse.find? (fun m => m.metric == header)

/-- Record key of the merge map: per-file index plus apartment and raw dates
(excel.service.ts:1874). -/
def mergeRecordKey (workbookIdx : ℕ) (record : ParsedExcelRecord) : String :=
  toString workbookIdx ++ "|" ++ record.apartment ++ "|" ++ record.dateFrom ++
    "|" ++ record.dateTo

/-- Replacement upsert of `recordMap.set` (keeps the original position). -/
def upsertMergeRecord (key : String) (r : ParsedExcelRecord) :
    List (String × ParsedExcelRecord) → List (String × ParsedExcelRecord)
  | [] => [(key, r)]
  | (k, x) :: rest =>
    if k = key then (key, r) :: rest
    else (k, x) :: upsertMergeRecord key r rest

/-- Merged record sort comparator (excel.service.ts:1884-1900): apartment
label, then normalized dateFrom, then normalized dateTo (unparseable dates
compare as the empty string). -/
def mergeRecordCmp (a b : ParsedExcelRecord) : ℤ :=
  let apartmentCompare := jsCompareStrings a.apartment b.apartment
  if apartmentCompare ≠ 0 then apartmentCompare
  else
    let leftFrom := (normalizeDate a.dateFrom).getD ""
    let rightFrom := (normalizeDate b.dateFrom).getD ""
    let dateCompare := jsCompareStrings leftFrom rightFrom
    if dateCompare ≠ 0 then dateCompare
    else jsCompareStrings ((normalizeDate a.dateTo).getD "")
      ((normalizeDate b.dateTo).getD "")

/-- Alignment of one record's metrics to the union header list
(excel.service.ts:1861-1873). -/
def alignRecordToHeaders (headers : List String) (record : ParsedExcelRecord) :
    ParsedExcelRecord :=
  { apartment := record.apartment, dateFrom := record.dateFrom,
    dateTo := record.dateTo,
    metrics := headers.map (fun header =>
      match metricByNameLookup record.metrics header with
      | some matched => matched
      | none => emptyMetricFor header) }

/-- Model of `ExcelService.mergeParsedWorkbooks` (excel.service.ts:1843-1907).
The thrown `BadRequestException` is modelled as `Except.error`. -/
def mergeParsedWorkbooks (workbooks : List ParsedExcelWorkbook) :
    Except String ParsedExcelWorkbook :=
  if workbooks = [] then .error "No parsed workbook data available"
  else
    let headers := firstOccurrenceDedup (workbooks.flatMap (·.headers))
    let recordMap := workbooks.enum.foldl (fun acc p =>
      p.2.records.foldl (fun acc record =>
        upsertMergeRecord (mergeRecordKey p.1 record)
          (alignRecordToHeaders headers record) acc) acc) []
    let records := List.insertionSort (fun a b => mergeRecordCmp a b ≤ 0)
      (recordMap.map Prod.snd)
    .ok { headers := headers, recordCount := records.length, records := records }

/-- Specification-side helper (not part of the source model): the merge
map's (key, aligned record) insertions, one per record of every file, in
processing order. -/
def mergePairs (workbooks : List ParsedExcelWorkbook) (headers : List String) :
    List (String × ParsedExcelRecord) :=
  workbooks.enum.flatMap (fun p =>
    p.2.records.map (fun r =>
      (mergeRecordKey p.1 r, alignRecordToHeaders headers r)))

/-- Specification-side helper (not part of the source model): every merge
key, one per record of every file. -/
def mergeKeys (workbooks : List ParsedExcelWorkbook) : List String :=
  workbooks.enum.flatMap (fun p => p.2.records.map (fun r => mergeRecordKey p.1 r))

/-- Specification-side helper (not part of the source model): the sort key
realised by `mergeRecordCmp`, as a lexicographic triple of character
lists. -/
def mergeSortKey (r : ParsedExcelRecord) :
    (List Char) ×ₗ ((List Char) ×ₗ (List Char)) :=
  toLex (r.apartment.data,
    toLex (((normalizeDate r.dateFrom).getD "").data,
      ((normalizeDate r.dateTo).getD "").data))

/-! ### Block Parser -/

/-- Worksheet model: the grid of already-extracted cell texts. The
`getWorksheetCellText` extraction (formatted display text preferred over the
raw value, date cells rendered as ISO, trimming) is abstracted: the cells of
this model hold the extracted strings, and the `!ref` bounding range of the
sheet is the bounding box of the row lists. -/
structure Worksheet where
  rows : List (List String)
deriving DecidableEq

/-- Cell text at (row, col); absent cells read as `""`. -/
def wsCellText (ws : Worksheet) (r c : ℕ) : String :=
  ((ws.rows[r]?).bind (fun row => row[c]?)).getD ""

/-- Row bound `range.e.r` of the worksheet. -/
def wsEndRow (ws : Worksheet) : ℕ := ws.rows.length - 1

/-- Column bound `range.e.c` of the worksheet. -/
def wsEndCol (ws : Worksheet) : ℕ :=
  (ws.rows.map (·.length)).foldl Nat.max 0 - 1

/-- Header scan of `parseWorksheetBlocks` (excel.service.ts:2131-2137):
columns 2..range.e.c of row 0 whose text is non-empty. -/
def headerColumnsOf (ws : Worksheet) : List (String × ℕ) :=
  ((List.range (wsEndCol ws + 1)).drop 2).filterMap (fun col =>
    let header := wsCellText ws 0 col
    if header = "" then none else some (header, col))

/-- The record built from one 5-row block starting at `row`
(excel.service.ts:2158-2173). -/
def blockRecordOf (ws : Worksheet) (headerColumns : List (String × ℕ))
    (row : ℕ) : ParsedExcelRecord :=
  { apartment := wsCellText ws row 0, dateFrom := wsCellText ws row 1,
    dateTo := wsCellText ws (row + 1) 1,
    metrics := headerColumns.map (fun entry =>
      { metric := entry.1,
        startValue := wsCellText ws row entry.2,
        endValue := wsCellText ws (row + 1) entry.2,
        consumption := wsCellText ws (row + 2) entry.2,
        rate := wsCellText ws (row + 3) entry.2,
        total := wsCellText ws (row + 4) entry.2 }) }

/-- Scan loop of `parseWorksheetBlocks` (excel.service.ts:2145-2175), with
an explicit iteration budget: an empty apartment or period-start cell
advances one row, a block start with fewer than five rows remaining stops,
otherwise a record is emitted and the scan jumps five rows. -/
def parseBlocksLoopF (ws : Worksheet) (headerColumns : List (String × ℕ)) :
    ℕ → ℕ → List ParsedExcelRecord
  | 0, _ => []
  | fuel + 1, row =>
    if row ≤ wsEndRow ws then
      if wsCellText ws row 0 = "" ∨ wsCellText ws row 1 = "" then
        parseBlocksLoopF ws headerColumns fuel (row + 1)
      else if wsEndRow ws < row + 4 then []
      else blockRecordOf ws headerColumns row ::
        parseBlocksLoopF ws headerColumns fuel (row + 5)
    else []

/-- Scan loop of `parseWorksheetBlocks` starting at `row`. The source loop
strictly increases its row counter while it is at most `range.e.r`, so
`wsEndRow ws + 1 - row` iterations always suffice. -/
def parseBlocksLoop (ws : Worksheet) (headerColumns : List (String × ℕ))
    (row : ℕ) : List ParsedExcelRecord :=
  parseBlocksLoopF ws headerColumns (wsEndRow ws + 1 - row) row

/-- Model of `ExcelService.parseWorksheetBlocks` (excel.service.ts:2124-2182).
A worksheet without cells has no `!ref` range, modelled as the empty row
list; thrown errors are `Except.error`. -/
def parseWorksheetBlocks (ws : Worksheet) : Except String ParsedExcelWorkbook :=
  if ws.rows = [] then .error "Worksheet is empty"
  else
    let headerColumns := headerColumnsOf ws
    if headerColumns = [] then .error "Header row is missing metric columns"
    else
      let records := parseBlocksLoop ws headerColumns 1
      .ok { headers := headerColumns.map Prod.fst,
            recordCount := records.length, records := records }


/-! ### Concrete fixtures -/

/-- Workbook with one record whose reported consumption is 0.0501 while the
computed consumption is 0. -/
def c1Workbook : ParsedExcelWorkbook :=
  { headers := ["Woda"], recordCount := 1,
    records := [{ apartment := "Polna 1/2", dateFrom := "2023-01-01",
                  dateTo := "2023-06-30",
                  metrics := [{ metric := "Woda", startValue := "0",
                                endValue := "0", consumption := "0,0501",
                                rate := "", total := "" }] }] }


/-- Specification-side helper (not part of the source model): the count
stored in an association list of (rate, count) entries, 0 when absent. -/
def countOf (f : List (ℚ × ℕ)) (k : ℚ) : ℕ :=
  ((f.find? (fun e => e.1 == k)).map Prod.snd).getD 0

/-- Fixture row for the outlier example: one (address, apartment, metric,
period) detailed row carrying only a rate. -/
def c7Row (apartment : String) (rate : ℚ) : DetailedSummaryRow :=
  { address := "A", apartment := apartment, apartmentFull := "A/" ++ apartment,
    dateFrom := "2023-01-01", dateTo := "2023-06-30",
    periodKey := "2023-01-01|2023-06-30", metric := "Woda",
    startValue := none, endValue := none, consumptionReported := none,
    consumptionComputed := none, consumptionDifference := none,
    consumptionIsValid := none, rate := some rate, reportedTotal := none,
    computedTotal := none, totalDifference := none, totalIsValid := none }

/-- Four rows of one metric and period with rates 1.0, 1.0, 1.0 and 1.2. -/
def c7Rows : List DetailedSummaryRow :=
  [c7Row "1" (mkRat 1 1), c7Row "2" (mkRat 1 1), c7Row "3" (mkRat 1 1),
   c7Row "4" (mkRat 12 10)]


/-- Specification-side helper (not part of the source model): the max scan of
`pickDominantRate` as a named function. -/
def scanDominant (f : List (ℚ × ℕ)) (acc : ℚ × ℕ) : ℚ × ℕ :=
  f.foldl (fun best entry => if best.2 < entry.2 then entry else best) acc


/-- Fixture row for the year-over-year claims: one period with readings. -/
def c3Row (dateFrom dateTo : String) (sv ev : ℚ) : DetailedSummaryRow :=
  { address := "A", apartment := "1", apartmentFull := "A/1",
    dateFrom := dateFrom, dateTo := dateTo,
    periodKey := dateFrom ++ "|" ++ dateTo, metric := "Woda",
    startValue := some sv, endValue := some ev, consumptionReported := none,
    consumptionComputed := none, consumptionDifference := none,
    consumptionIsValid := none, rate := none, reportedTotal := none,
    computedTotal := none, totalDifference := none, totalIsValid := none }

/-- Rows with annual consumptions 0.06 (2022) and 0.07 (2023), whose exact
change percentage 50/3 is not representable in two decimals. -/
def c3Rows : List DetailedSummaryRow :=
  [c3Row "2022-01-01" "2022-12-31" 0 (mkRat 6 100),
   c3Row "2023-01-01" "2023-12-31" (mkRat 6 100) (mkRat 13 100)]

/-- Rows with annual consumptions 100 (2022) and 80 (2023), the example of
the claim. -/
def c3ExampleRows : List DetailedSummaryRow :=
  [c3Row "2022-01-01" "2022-12-31" 0 (mkRat 100 1),
   c3Row "2023-01-01" "2023-12-31" (mkRat 100 1) (mkRat 180 1)]

/-- Specification-side helper (not part of the source model): the invariant
of the yearly grouping map — the keys are distinct and each is the key
string of its group's identifying fields. -/
def YearlyInv (l : List (String × YearlyGroup)) : Prop :=
  (l.map Prod.fst).Nodup ∧
    ∀ e ∈ l, e.1 = yearlyKeyOf e.2.address e.2.apartment e.2.metric e.2.year

/-- Header row of the block-parser fixture: two label columns and one
metric column. -/
def c5Header : List String := ["Lokal", "Od", "Woda"]

/-- A well-formed five-row block with the given apartment label and period
dates. -/
def c5Block (apt df dt : String) : List (List String) :=
  [[apt, df, "1"], ["", dt, "2"], ["", "", "1"], ["", "", "3,50"],
   ["", "", "3,50"]]

/-- Two well-formed blocks. -/
def c5Blocks : List (List (List String)) :=
  [c5Block "A/1" "2023-01-01" "2023-06-30",
   c5Block "A/2" "2023-01-01" "2023-06-30"]

/-- The fixture worksheet: a header row followed by the two blocks. -/
def c5Ws : Worksheet := { rows := c5Header :: c5Blocks.flatten }

/-- A one-record workbook; merging it with itself must keep both copies. -/
def c6Wb : ParsedExcelWorkbook :=
  { headers := ["Woda"], recordCount := 1,
    records := [{ apartment := "Polna 1/2", dateFrom := "2023-01-01",
                  dateTo := "2023-06-30",
                  metrics := [{ metric := "Woda", startValue := "1",
                                endValue := "2", consumption := "1",
                                rate := "", total := "" }] }] }

/-- Rows of one group covering 2023 with two adjacent half-year periods. -/
def c2AdjacentRows : List DetailedSummaryRow :=
  [c3Row "2023-01-01" "2023-06-30" 0 1,
   c3Row "2023-07-01" "2023-12-31" 1 2]

/-- The same two periods with a ten-day gap between them. -/
def c2GapRows : List DetailedSummaryRow :=
  [c3Row "2023-01-01" "2023-06-30" 0 1,
   c3Row "2023-07-11" "2023-12-31" 1 2]

/-! ## Theorems

Everything below is proof: bridge lemmas for the kernel-computable rational
wrappers, sanity evaluations of the embedded primitives, helper lemmas, and
the claim theorems. -/

theorem rAdd_eq (a b : ℚ) : rAdd a b = a + b := by
  unfold rAdd
  have hda : (a.den : ℚ) ≠ 0 := by exact_mod_cast a.den_nz
  have hdb : (b.den : ℚ) ≠ 0 := by exact_mod_cast b.den_nz
  rw [Rat.mkRat_eq_div]
  push_cast
  conv_rhs => rw [← Rat.num_div_den a, ← Rat.num_div_den b]
  field_simp

theorem rNeg_eq (a : ℚ) : rNeg a = -a := by
  unfold rNeg
  rw [Rat.mkRat_eq_div]
  push_cast
  rw [neg_div, Rat.num_div_den]

theorem rSub_eq (a b : ℚ) : rSub a b = a - b := by
  unfold rSub
  have hda : (a.den : ℚ) ≠ 0 := by exact_mod_cast a.den_nz
  have hdb : (b.den : ℚ) ≠ 0 := by exact_mod_cast b.den_nz
  rw [Rat.mkRat_eq_div]
  push_cast
  conv_rhs => rw [← Rat.num_div_den a, ← Rat.num_div_den b]
  field_simp
  ring

theorem rMul_eq (a b : ℚ) : rMul a b = a * b := by
  unfold rMul
  have hda : (a.den : ℚ) ≠ 0 := by exact_mod_cast a.den_nz
  have hdb : (b.den : ℚ) ≠ 0 := by exact_mod_cast b.den_nz
  rw [Rat.mkRat_eq_div]
  push_cast
  conv_rhs => rw [← Rat.num_div_den a, ← Rat.num_div_den b]
  field_simp

theorem rDiv_eq (a b : ℚ) : rDiv a b = a / b := by
  unfold rDiv
  by_cases hb : b = 0
  · subst hb
    simp [Rat.mkRat_eq_div]
  · have hda : (a.den : ℚ) ≠ 0 := by exact_mod_cast a.den_nz
    have hdb : (b.den : ℚ) ≠ 0 := by exact_mod_cast b.den_nz
    have hnum : b.num ≠ 0 := Rat.num_ne_zero.mpr hb
    have hnumq : (b.num : ℚ) ≠ 0 := by exact_mod_cast hnum
    rcases hnum.lt_or_lt with hneg | hpos
    · rw [if_neg (by omega), Rat.mkRat_eq_div]
      have htnq : (((-b.num).toNat : ℕ) : ℚ) = -(b.num : ℚ) := by
        exact_mod_cast Int.toNat_of_nonneg (by omega : (0:ℤ) ≤ -b.num)
      push_cast [htnq]
      conv_rhs => rw [← Rat.num_div_den a, ← Rat.num_div_den b]
      field_simp
    · rw [if_pos (by omega), Rat.mkRat_eq_div]
      have htnq : (((b.num).toNat : ℕ) : ℚ) = (b.num : ℚ) := by
        exact_mod_cast Int.toNat_of_nonneg (by omega : (0:ℤ) ≤ b.num)
      push_cast [htnq]
      conv_rhs => rw [← Rat.num_div_den a, ← Rat.num_div_den b]
      field_simp

theorem rAbs_eq (a : ℚ) : rAbs a = |a| := by
  unfold rAbs
  rw [rNeg_eq]
  by_cases h : a < 0
  · rw [if_pos h, abs_of_neg h]
  · rw [if_neg h, abs_of_nonneg (le_of_not_lt h)]

example : parsePolishNumber "1 234,56" = some (mkRat 123456 100) := by decide
example : parsePolishNumber "12.345,67" = some (mkRat 1234567 100) := by decide
example : parsePolishNumber "12.5" = some (mkRat 125 10) := by decide
example : parsePolishNumber "0,0501" = some (mkRat 501 10000) := by decide
example : parsePolishNumber "" = none := by decide
example : parsePolishNumber "1,2,3" = none := by decide
example : parsePolishNumber "-1,5e2" = some (mkRat (-150) 1) := by decide
example : roundTo2 (mkRat 501 10000) = mkRat 5 100 := by decide
example : roundTo2 (mkRat (-5) 1000) = 0 := by decide
example : daysFromCivil 1970 1 1 = 0 := by decide
example : daysFromCivil 2023 1 1 = 19358 := by decide
example : daysFromCivil 2024 2 29 = 19782 := by decide
example : normalizeDate "15.03.2023" = some "2023-03-15" := by decide
example : normalizeDate "2023-13-99" = some "2023-13-99" := by decide
example : normalizeDate " 2023-01-05 " = some "2023-01-05" := by decide
example : normalizeDate "32.01.2023" = none := by decide
example : toUtcTimestamp "2023-13-99" = none := by decide
example : toUtcTimestamp "2023-01-01" = some (19358 * 86400000) := by decide
example : getYearFromIsoDate "31.12.2022" = some 2022 := by decide

/-! ### Helper lemmas on lists and characters -/

theorem dropWhile_eq_self_of_all_false {α} {p : α → Bool} {l : List α}
    (h : ∀ c ∈ l, p c = false) : l.dropWhile p = l := by
  cases l with
  | nil => rfl
  | cons a t =>
    rw [List.dropWhile_cons, h a (List.mem_cons_self a t)]
    simp

theorem takeWhile_append_of_all_true {α} {p : α → Bool} {l₁ l₂ : List α}
    (h : ∀ c ∈ l₁, p c = true) :
    (l₁ ++ l₂).takeWhile p = l₁ ++ l₂.takeWhile p := by
  induction l₁ with
  | nil => simp
  | cons a t ih =>
    rw [List.cons_append, List.takeWhile_cons, if_pos (h a (List.mem_cons_self a t)),
      ih (fun c hc => h c (List.mem_cons_of_mem a hc))]
    simp

theorem dropWhile_append_of_all_true {α} {p : α → Bool} {l₁ l₂ : List α}
    (h : ∀ c ∈ l₁, p c = true) :
    (l₁ ++ l₂).dropWhile p = l₂.dropWhile p := by
  induction l₁ with
  | nil => simp
  | cons a t ih =>
    rw [List.cons_append, List.dropWhile_cons, if_pos (h a (List.mem_cons_self a t))]
    exact ih (fun c hc => h c (List.mem_cons_of_mem a hc))

theorem takeWhile_eq_self_of_all_true {α} {p : α → Bool} {l : List α}
    (h : ∀ c ∈ l, p c = true) : l.takeWhile p = l := by
  have := @takeWhile_append_of_all_true α p l ([] : List α) h
  simpa using this

theorem takeWhile_cons_of_false {α} {p : α → Bool} {a : α} {l : List α}
    (h : p a = false) : (a :: l).takeWhile p = [] := by
  simp [List.takeWhile_cons, h]

theorem dropWhile_cons_of_false {α} {p : α → Bool} {a : α} {l : List α}
    (h : p a = false) : (a :: l).dropWhile p = a :: l := by
  simp [List.dropWhile_cons, h]

theorem replaceFirstChar_append {l₁ l₂ : List Char} {t r : Char}
    (h : ∀ c ∈ l₁, c ≠ t) :
    replaceFirstChar (l₁ ++ t :: l₂) t r = l₁ ++ r :: l₂ := by
  induction l₁ with
  | nil => simp [replaceFirstChar]
  | cons a tl ih =>
    simp only [List.cons_append, replaceFirstChar,
      if_neg (h a (List.mem_cons_self a tl)), List.cons.injEq, true_and]
    exact ih (fun c hc => h c (List.mem_cons_of_mem a hc))

theorem ne_of_isDigit_of_not {c d : Char} (h : c.isDigit = true)
    (hd : d.isDigit = false) : c ≠ d := by
  rintro rfl
  rw [h] at hd
  simp at hd

theorem jsWs_false_of_isDigit {c : Char} (h : c.isDigit = true) :
    jsWhitespaceChar c = false := by
  have h1 : c ≠ ' ' := ne_of_isDigit_of_not h (by decide)
  have h2 : c ≠ '\t' := ne_of_isDigit_of_not h (by decide)
  have h3 : c ≠ '\n' := ne_of_isDigit_of_not h (by decide)
  have h4 : c ≠ '\r' := ne_of_isDigit_of_not h (by decide)
  have h5 : c ≠ '\x0b' := ne_of_isDigit_of_not h (by decide)
  have h6 : c ≠ '\x0c' := ne_of_isDigit_of_not h (by decide)
  simp [jsWhitespaceChar, h1, h2, h3, h4, h5, h6]

theorem string_mk_ne_empty {l : List Char} (h : l ≠ []) : (⟨l⟩ : String) ≠ "" := by
  intro he
  apply h
  have : (⟨l⟩ : String).data = ("" : String).data := by rw [he]
  simpa using this

theorem jsTrim_mk_eq_self {l : List Char}
    (h : ∀ c ∈ l, jsWhitespaceChar c = false) : jsTrim ⟨l⟩ = ⟨l⟩ := by
  unfold jsTrim
  have hd : l.dropWhile jsWhitespaceChar = l := dropWhile_eq_self_of_all_false h
  show (⟨((( ⟨l⟩ : String).data.dropWhile jsWhitespaceChar).reverse.dropWhile
    jsWhitespaceChar).reverse⟩ : String) = ⟨l⟩
  have hdata : (⟨l⟩ : String).data = l := rfl
  rw [hdata, hd, dropWhile_eq_self_of_all_false
    (fun c hc => h c (List.mem_reverse.mp hc)), List.reverse_reverse]

/-! ### Claim C9: address/unit splitting -/

/-- Claim C9 as stated is falsified by a label whose part before the first
slash is empty: the code falls back to the full trimmed label, not the empty
part. Concretely, `splitApartment "/5"` returns address `"/5"`, while the
claim requires the part before the slash, `""`. -/
theorem C9_counterexample :
    (splitApartment "/5").address = "/5" ∧ "/5" ≠ ("" : String) := by
  constructor
  · rfl
  · decide

/-- Claim C9 (amended): after trimming, the label is split at the first
slash; each side is trimmed, and a side that becomes empty falls back to the
whole trimmed label. Without a slash both parts are the trimmed label, and
an empty (or all-whitespace) label yields the sentinels. -/
theorem C9_split_apartment (label : String) :
    (jsTrim label = "" →
      splitApartment label = ⟨"Brak adresu", "Brak lokalu"⟩) ∧
    (jsTrim label ≠ "" → '/' ∉ (jsTrim label).data →
      splitApartment label = ⟨jsTrim label, jsTrim label⟩) ∧
    (∀ pre post : List Char, (jsTrim label).data = pre ++ '/' :: post →
      '/' ∉ pre →
      splitApartment label =
        ⟨if jsTrim ⟨pre⟩ = "" then jsTrim label else jsTrim ⟨pre⟩,
         if jsTrim ⟨post⟩ = "" then jsTrim label else jsTrim ⟨post⟩⟩) := by
  refine ⟨?_, ?_, ?_⟩
  · intro h
    simp [splitApartment, h]
  · intro hne hmem
    have htake : (jsTrim label).data.takeWhile (fun c => c ≠ '/') =
        (jsTrim label).data :=
      takeWhile_eq_self_of_all_true (fun c hc => by
        simp only [decide_eq_true_eq]
        exact fun hc' => hmem (hc' ▸ hc))
    simp only [splitApartment, if_neg hne, htake]
    simp
  · intro pre post hdata hpre
    have hne : jsTrim label ≠ "" := by
      intro he
      rw [he] at hdata
      exact absurd hdata.symm (by simp)
    have htake : (jsTrim label).data.takeWhile (fun c => c ≠ '/') = pre := by
      rw [hdata, takeWhile_append_of_all_true (fun c hc => by
        simp only [decide_eq_true_eq]
        exact fun hc' => hpre (hc' ▸ hc))]
      rw [takeWhile_cons_of_false (by simp)]
      simp
    have hlen : pre.length ≠ (jsTrim label).data.length := by
      rw [hdata]
      simp only [List.length_append, List.length_cons]
      omega
    have hdrop : (jsTrim label).data.drop (pre.length + 1) = post := by
      rw [hdata]
      have : pre ++ '/' :: post = (pre ++ ['/']) ++ post := by simp
      rw [this]
      have hl : (pre ++ ['/']).length = pre.length + 1 := by simp
      rw [← hl, List.drop_left]
    simp only [splitApartment, if_neg hne, htake, if_neg hlen, hdrop]

/-- Witness for the amended C9 theorem at concrete labels covering each
branch's hypotheses. -/
theorem C9_split_apartment_witness :
    (jsTrim "   " = "" ∧ splitApartment "   " = ⟨"Brak adresu", "Brak lokalu"⟩) ∧
    (jsTrim "Polna 3" ≠ "" ∧ '/' ∉ (jsTrim "Polna 3").data ∧
      splitApartment "Polna 3" = ⟨"Polna 3", "Polna 3"⟩) ∧
    ((jsTrim " Polna 3 / 7A ").data =
        "Polna 3 ".data ++ '/' :: " 7A".data ∧ '/' ∉ "Polna 3 ".data ∧
      splitApartment " Polna 3 / 7A " = ⟨"Polna 3", "7A"⟩) := by
  refine ⟨⟨by decide, (C9_split_apartment "   ").1 (by decide)⟩,
    ⟨by decide, by decide, (C9_split_apartment "Polna 3").2.1 (by decide) (by decide)⟩,
    ⟨by decide, by decide, ?_⟩⟩
  have h := (C9_split_apartment " Polna 3 / 7A ").2.2 "Polna 3 ".data " 7A".data
    (by decide) (by decide)
  rw [h]
  decide

/-! ### Rounding lemmas -/

theorem VALIDATION_TOLERANCE_eq : VALIDATION_TOLERANCE = 1/20 := by
  unfold VALIDATION_TOLERANCE
  rw [Rat.mkRat_eq_div]
  norm_num

theorem roundTo2_eq (d : ℚ) : roundTo2 d = ((⌊d * 100 + 1/2⌋ : ℤ) : ℚ) / 100 := by
  unfold roundTo2
  rw [rAdd_eq, rMul_eq, Rat.mkRat_eq_div]
  have h1 : (mkRat 100 1 : ℚ) = 100 := by rw [Rat.mkRat_eq_div]; norm_num
  have h2 : (mkRat 1 2 : ℚ) = 1/2 := by rw [Rat.mkRat_eq_div]; norm_num
  rw [h1, h2]
  norm_num
  rfl

theorem roundTo2_abs_le_tol_iff (d : ℚ) :
    |roundTo2 d| ≤ VALIDATION_TOLERANCE ↔ -(11/200) ≤ d ∧ d < 11/200 := by
  rw [roundTo2_eq, VALIDATION_TOLERANCE_eq, abs_div]
  have h100 : |(100:ℚ)| = 100 := by norm_num
  rw [h100, div_le_div_iff₀ (by norm_num) (by norm_num)]
  have hcast : |((⌊d * 100 + 1/2⌋ : ℤ) : ℚ)| = ((|⌊d * 100 + 1/2⌋| : ℤ) : ℚ) := by
    push_cast
    rfl
  constructor
  · intro h
    rw [hcast] at h
    have habs : ((|⌊d * 100 + 1/2⌋| : ℤ) : ℚ) ≤ ((5 : ℤ) : ℚ) := by push_cast; linarith
    have habs' : |⌊d * 100 + 1/2⌋| ≤ (5 : ℤ) := by exact_mod_cast habs
    rw [abs_le] at habs'
    have h1' : ((-5 : ℤ) : ℚ) ≤ d * 100 + 1/2 := Int.le_floor.mp habs'.1
    have h2 : ⌊d * 100 + 1/2⌋ < (6 : ℤ) := by omega
    have h2' : d * 100 + 1/2 < ((6 : ℤ) : ℚ) := Int.floor_lt.mp h2
    push_cast at h1' h2'
    constructor <;> linarith
  · rintro ⟨h1, h2⟩
    have h1' : (-5 : ℤ) ≤ ⌊d * 100 + 1/2⌋ := Int.le_floor.mpr (by push_cast; linarith)
    have h2' : ⌊d * 100 + 1/2⌋ < (6 : ℤ) := Int.floor_lt.mpr (by push_cast; linarith)
    have habs : |⌊d * 100 + 1/2⌋| ≤ (5 : ℤ) := abs_le.mpr ⟨h1', by omega⟩
    rw [hcast]
    have hq : ((|⌊d * 100 + 1/2⌋| : ℤ) : ℚ) ≤ ((5 : ℤ) : ℚ) := by exact_mod_cast habs
    push_cast at hq
    linarith

/-! ### Claim C1: consumption and charge validity tolerance -/

/-- Claim C1 as stated is falsified by rounding: a reported consumption of
0.0501 against a computed consumption of 0 yields a raw difference of 0.0501,
which exceeds 0.05, yet the flag is true because the code compares the
difference rounded to two decimals (0.05). The run below goes through
`buildDetailedRows` on a concrete workbook. -/
theorem C1_counterexample :
    ((buildDetailedRows {} c1Workbook ["Woda"]).map
      (fun r => (r.consumptionReported, r.consumptionComputed, r.consumptionIsValid))) =
      [(some (mkRat 501 10000), some 0, some true)] ∧
    ¬ |(mkRat 501 10000 : ℚ) - 0| ≤ VALIDATION_TOLERANCE := by
  constructor
  · decide
  · rw [VALIDATION_TOLERANCE_eq, Rat.mkRat_eq_div]
    intro h
    rw [abs_le] at h
    have := h.2
    norm_num at this

/-- Claim C1 (amended): in every detailed row where both the reported and
computed consumptions parse, the consumption validity flag is true iff the
difference rounded to two decimals has absolute value at most 0.05 —
equivalently, iff the raw difference d satisfies -0.055 ≤ d < 0.055. A
difference of exactly 0.05 is valid, and 0.0501 is also valid because it
rounds to 0.05. The same rounded-tolerance rule governs charge validity,
with computedTotal = roundTo2(reportedConsumption * rate). -/
theorem C1_rounded_tolerance (a ap af ndf ndt pk : String) (m : ParsedExcelMetric) :
    (∀ r c : ℚ,
      (buildMetricDetailedRow a ap af ndf ndt pk m).consumptionReported = some r →
      (buildMetricDetailedRow a ap af ndf ndt pk m).consumptionComputed = some c →
      (buildMetricDetailedRow a ap af ndf ndt pk m).consumptionIsValid =
        some (decide (|roundTo2 (r - c)| ≤ VALIDATION_TOLERANCE))) ∧
    (∀ rr rate : ℚ,
      (buildMetricDetailedRow a ap af ndf ndt pk m).consumptionReported = some rr →
      (buildMetricDetailedRow a ap af ndf ndt pk m).rate = some rate →
      (buildMetricDetailedRow a ap af ndf ndt pk m).computedTotal =
        some (roundTo2 (rr * rate))) ∧
    (∀ rt ct : ℚ,
      (buildMetricDetailedRow a ap af ndf ndt pk m).reportedTotal = some rt →
      (buildMetricDetailedRow a ap af ndf ndt pk m).computedTotal = some ct →
      (buildMetricDetailedRow a ap af ndf ndt pk m).totalIsValid =
        some (decide (|roundTo2 (rt - ct)| ≤ VALIDATION_TOLERANCE))) ∧
    (∀ d : ℚ, |roundTo2 d| ≤ VALIDATION_TOLERANCE ↔ -(11/200) ≤ d ∧ d < 11/200) := by
  refine ⟨?_, ?_, ?_, roundTo2_abs_le_tol_iff⟩
  · intro r c hr hc
    simp only [buildMetricDetailedRow] at hr hc ⊢
    rw [hc, hr]
    simp [rSub_eq, rAbs_eq]
  · intro rr rate hr hrate
    simp only [buildMetricDetailedRow] at hr hrate ⊢
    rw [hr, hrate]
    simp [rMul_eq]
  · intro rt ct hrt hct
    simp only [buildMetricDetailedRow] at hrt hct ⊢
    rw [hct, hrt]
    simp [rSub_eq, rAbs_eq]

/-- Witness for the amended C1 theorem: a concrete metric block with
reported consumption 0.05 against computed 0 (flag true), applied to each
hypothesis-carrying conjunct. -/
theorem C1_rounded_tolerance_witness :
    ((buildMetricDetailedRow "A" "1" "A/1" "2023-01-01" "2023-06-30" "k"
        { metric := "Woda", startValue := "0", endValue := "0",
          consumption := "0,05", rate := "2", total := "0,1" }).consumptionReported =
      some (mkRat 5 100)) ∧
    ((buildMetricDetailedRow "A" "1" "A/1" "2023-01-01" "2023-06-30" "k"
        { metric := "Woda", startValue := "0", endValue := "0",
          consumption := "0,05", rate := "2", total := "0,1" }).consumptionComputed =
      some 0) ∧
    ((buildMetricDetailedRow "A" "1" "A/1" "2023-01-01" "2023-06-30" "k"
        { metric := "Woda", startValue := "0", endValue := "0",
          consumption := "0,05", rate := "2", total := "0,1" }).consumptionIsValid =
      some (decide (|roundTo2 ((mkRat 5 100) - 0)| ≤ VALIDATION_TOLERANCE))) := by
  refine ⟨by decide, by decide, ?_⟩
  exact (C1_rounded_tolerance "A" "1" "A/1" "2023-01-01" "2023-06-30" "k"
    { metric := "Woda", startValue := "0", endValue := "0",
      consumption := "0,05", rate := "2", total := "0,1" }).1
    (mkRat 5 100) 0 (by decide) (by decide)

/-! ### Claim C4: locale-aware numeric parsing -/

theorem filter_not_dropWhile {α} (p : α → Bool) (l : List α) :
    (l.dropWhile p).filter (fun c => !p c) = l.filter (fun c => !p c) := by
  induction l with
  | nil => rfl
  | cons a t ih =>
    by_cases h : p a = true
    · rw [List.dropWhile_cons, if_pos h, ih,
        List.filter_cons_of_neg (by simp [h])]
    · rw [List.dropWhile_cons, if_neg h]

theorem stripJsWhitespace_jsTrim (s : String) :
    stripJsWhitespace (jsTrim s) = stripJsWhitespace s := by
  unfold jsTrim stripJsWhitespace
  show (⟨List.filter _ (((s.data.dropWhile jsWhitespaceChar).reverse.dropWhile
    jsWhitespaceChar).reverse)⟩ : String) = ⟨List.filter _ s.data⟩
  rw [List.filter_reverse, filter_not_dropWhile, List.filter_reverse,
    List.reverse_reverse, filter_not_dropWhile]

theorem contains_of_mem {l : List Char} {c : Char} (h : c ∈ l) :
    l.contains c = true :=
  List.elem_iff.mpr h

/-- Claim C4: the numeric parser accepts ',' and '.' as decimal separators;
with both present, dots are thousands separators and the comma the decimal
mark (stated generally for digit groups around one dot and one comma);
whitespace inside the number is ignored (parsing depends only on the
whitespace-stripped text); the cited examples parse as specified. Parsing
failure yields `none` by the total type of the model — no exception exists. -/
theorem C4_parse_polish_number :
    parsePolishNumber "1 234,56" = some (mkRat 123456 100) ∧
    parsePolishNumber "12.345,67" = some (mkRat 1234567 100) ∧
    parsePolishNumber "12.5" = some (mkRat 125 10) ∧
    (∀ a b c : List Char, a ≠ [] → b ≠ [] → c ≠ [] →
      (∀ ch ∈ a, ch.isDigit = true) → (∀ ch ∈ b, ch.isDigit = true) →
      (∀ ch ∈ c, ch.isDigit = true) →
      parsePolishNumber ⟨a ++ '.' :: b ++ ',' :: c⟩ =
        some ((digitsToNat (a ++ b) : ℚ) + (digitsToNat c : ℚ) / ((10 ^ c.length : ℕ) : ℚ))) ∧
    (∀ s t : String, s ≠ "" → t ≠ "" → jsTrim s ≠ "" → jsTrim t ≠ "" →
      stripJsWhitespace s = stripJsWhitespace t →
      parsePolishNumber s = parsePolishNumber t) := by
  refine ⟨by decide, by decide, by decide, ?_, ?_⟩
  · intro a b c ha hb hc hda hdb hdc
    -- the assembled character list (parenthesised as Lean parses it:
    -- (a ++ '.' :: b) ++ ',' :: c) and its basic properties
    set L := a ++ '.' :: b ++ ',' :: c with hL
    have hnotws : ∀ ch ∈ L, jsWhitespaceChar ch = false := by
      intro ch hch
      rw [hL] at hch
      rcases List.mem_append.mp hch with h1 | h2
      · rcases List.mem_append.mp h1 with h3 | h4
        · exact jsWs_false_of_isDigit (hda ch h3)
        · rcases List.mem_cons.mp h4 with rfl | h5
          · decide
          · exact jsWs_false_of_isDigit (hdb ch h5)
      · rcases List.mem_cons.mp h2 with rfl | h6
        · decide
        · exact jsWs_false_of_isDigit (hdc ch h6)
    have hLne : L ≠ [] := by
      rw [hL]
      simp
    have hne : (⟨L⟩ : String) ≠ "" := string_mk_ne_empty hLne
    have htrim : jsTrim ⟨L⟩ = ⟨L⟩ := jsTrim_mk_eq_self hnotws
    have hstrip : stripJsWhitespace ⟨L⟩ = ⟨L⟩ := by
      unfold stripJsWhitespace
      show (⟨List.filter _ L⟩ : String) = _
      rw [List.filter_eq_self.mpr (fun ch hch => by simp [hnotws ch hch])]
    rw [parsePolishNumber, if_neg hne, htrim, if_neg hne, hstrip]
    -- separator normalization: both ',' and '.' occur
    have hcomma : L.contains ',' = true := contains_of_mem (by
      rw [hL]
      exact List.mem_append.mpr (Or.inr (List.mem_cons.mpr (Or.inl rfl))))
    have hdot : L.contains '.' = true := contains_of_mem (by
      rw [hL]
      exact List.mem_append.mpr (Or.inl
        (List.mem_append.mpr (Or.inr (List.mem_cons.mpr (Or.inl rfl))))))
    rw [normalizeSeparatorsAndParse]
    show jsNumber (if L.contains ',' && L.contains '.' then _ else _) = _
    rw [hcomma, hdot]
    simp only [Bool.and_self, if_true]
    -- dot removal
    have hfilter : L.filter (fun ch => ch ≠ '.') = (a ++ b) ++ ',' :: c := by
      rw [hL, List.filter_append, List.filter_append,
        List.filter_eq_self.mpr (fun ch hch => by
          simp only [decide_eq_true_eq]
          exact ne_of_isDigit_of_not (hda ch hch) (by decide)),
        List.filter_cons_of_neg (by simp),
        List.filter_eq_self.mpr (fun ch hch => by
          simp only [decide_eq_true_eq]
          exact ne_of_isDigit_of_not (hdb ch hch) (by decide)),
        List.filter_cons_of_pos (by decide),
        List.filter_eq_self.mpr (fun ch hch => by
          simp only [decide_eq_true_eq]
          exact ne_of_isDigit_of_not (hdc ch hch) (by decide))]
    rw [hfilter]
    -- first-comma replacement
    have hreplace : replaceFirstChar ((a ++ b) ++ ',' :: c) ',' '.' =
        (a ++ b) ++ '.' :: c :=
      replaceFirstChar_append (fun ch hch => by
        rcases List.mem_append.mp hch with h1 | h2
        · exact ne_of_isDigit_of_not (hda ch h1) (by decide)
        · exact ne_of_isDigit_of_not (hdb ch h2) (by decide))
    rw [hreplace]
    -- the Number(...) conversion on "<digits>.<digits>"
    have hdab : ∀ ch ∈ a ++ b, ch.isDigit = true := by
      intro ch hch
      rcases List.mem_append.mp hch with h1 | h2
      · exact hda ch h1
      · exact hdb ch h2
    obtain ⟨a0, atl, rfl⟩ : ∃ a0 atl, a = a0 :: atl := by
      rcases a with _ | ⟨a0, atl⟩
      · exact absurd rfl ha
      · exact ⟨a0, atl, rfl⟩
    have ha0 : a0.isDigit = true := hda a0 (List.mem_cons_self a0 atl)
    set M := ((a0 :: atl) ++ b) ++ '.' :: c with hM
    have hheadM : M.head? = some a0 := by
      rw [hM, List.head?_append_of_ne_nil _ (by simp),
        List.head?_append_of_ne_nil _ (by simp)]
      rfl
    have hMdata : (⟨M⟩ : String).data = M := rfl
    have hMne : M ≠ [] := by rw [hM]; simp
    have hsgn : (if M.head? = some '-' then (-1 : ℤ) else 1) = 1 :=
      if_neg (by
        rw [hheadM]
        intro h
        injection h with h
        exact ne_of_isDigit_of_not ha0 (by decide) h)
    have hrest : (if M.head? = some '+' ∨ M.head? = some '-' then M.tail else M) = M :=
      if_neg (by
        rw [hheadM]
        rintro (h | h) <;> injection h with h
        · exact ne_of_isDigit_of_not ha0 (by decide) h
        · exact ne_of_isDigit_of_not ha0 (by decide) h)
    have htake : M.takeWhile Char.isDigit = (a0 :: atl) ++ b := by
      rw [hM]
      rw [show (a0 :: atl) ++ b ++ '.' :: c = ((a0 :: atl) ++ b) ++ '.' :: c by simp]
      rw [takeWhile_append_of_all_true hdab, takeWhile_cons_of_false (by decide)]
      simp
    have hdrop : M.dropWhile Char.isDigit = '.' :: c := by
      rw [hM]
      rw [show (a0 :: atl) ++ b ++ '.' :: c = ((a0 :: atl) ++ b) ++ '.' :: c by simp]
      rw [dropWhile_append_of_all_true hdab, dropWhile_cons_of_false (by decide)]
    rw [jsNumber, hMdata, if_neg hMne]
    simp only [hsgn, hrest, htake, hdrop]
    simp only [List.head?_cons, if_pos rfl, List.tail_cons]
    rw [takeWhile_eq_self_of_all_true hdc, List.dropWhile_eq_nil_iff.mpr hdc]
    rw [if_neg (show ¬((a0 :: atl) ++ b = [] ∧ c = []) by
      rintro ⟨h1, _⟩
      simp at h1)]
    rw [if_pos trivial]
    rw [show parseNumExponent [] = some 0 from rfl]
    rw [Option.map_some']
    -- arithmetic of the assembled rational
    congr 1
    rw [applyPow10, if_pos le_rfl]
    rw [rMul_eq, Rat.mkRat_eq_div, Rat.mkRat_eq_div]
    push_cast
    have h10 : ((10 : ℚ) ^ c.length) ≠ 0 := by positivity
    field_simp
  · intro s t hs ht hts htt hstrip
    rw [parsePolishNumber, parsePolishNumber, if_neg hs, if_neg ht,
      if_neg hts, if_neg htt, stripJsWhitespace_jsTrim, stripJsWhitespace_jsTrim,
      hstrip]

/-- Witness for C4: the general separators statement at the digit groups of
"12.345,67" and the whitespace statement at "1 234,56" vs "1234,56". -/
theorem C4_parse_polish_number_witness :
    (("12".data ≠ [] ∧ "345".data ≠ [] ∧ "67".data ≠ []) ∧
      parsePolishNumber ⟨"12".data ++ '.' :: "345".data ++ ',' :: "67".data⟩ =
        some ((digitsToNat ("12".data ++ "345".data) : ℚ) +
          (digitsToNat "67".data : ℚ) / ((10 ^ "67".data.length : ℕ) : ℚ))) ∧
    (stripJsWhitespace "1 234,56" = stripJsWhitespace "1234,56" ∧
      parsePolishNumber "1 234,56" = parsePolishNumber "1234,56") := by
  refine ⟨⟨⟨by decide, by decide, by decide⟩, ?_⟩, ⟨by decide, ?_⟩⟩
  · exact C4_parse_polish_number.2.2.2.1 "12".data "345".data "67".data
      (by decide) (by decide) (by decide) (by decide) (by decide) (by decide)
  · exact C4_parse_polish_number.2.2.2.2 "1 234,56" "1234,56"
      (by decide) (by decide) (by decide) (by decide) (by decide)

/-! ### Claim C8: date range filter -/

/-- Claim C8: a record is excluded by the date-range filter only when both of
its period dates normalize and its inclusive date span does not intersect the
requested inclusive range (missing bounds meaning unbounded); a record with
at least one unparsable date is always kept. -/
theorem C8_date_range_filter (record : ParsedExcelRecord)
    (rangeFrom rangeTo : Option String) :
    (isRecordInsideRange record rangeFrom rangeTo = false →
      ∃ rf rt, normalizeDate record.dateFrom = some rf ∧
        normalizeDate record.dateTo = some rt ∧
        ¬ ∃ d : String, rf ≤ d ∧ d ≤ rt ∧
          (∀ lo ∈ rangeFrom, lo ≤ d) ∧ (∀ hi ∈ rangeTo, d ≤ hi)) ∧
    ((normalizeDate record.dateFrom = none ∨ normalizeDate record.dateTo = none) →
      isRecordInsideRange record rangeFrom rangeTo = true) := by
  constructor
  · intro hfalse
    unfold isRecordInsideRange at hfalse
    rcases hnf : normalizeDate record.dateFrom with _ | rf <;> rw [hnf] at hfalse
    · simp at hfalse
    rcases hnt : normalizeDate record.dateTo with _ | rt <;> rw [hnt] at hfalse
    · simp at hfalse
    refine ⟨rf, rt, rfl, rfl, ?_⟩
    rintro ⟨d, hd1, hd2, hd3, hd4⟩
    have hfalse' : (if rangeFrom.any (fun lo => jsStrLt rt lo) = true then false
        else if rangeTo.any (fun hi => jsStrLt hi rf) = true then false
        else true) = false := hfalse
    by_cases h1 : rangeFrom.any (fun lo => jsStrLt rt lo) = true
    · rcases rangeFrom with _ | lo
      · simp [Option.any] at h1
      · simp only [Option.any] at h1
        have hlt : rt < lo := String.lt_iff_toList_lt.mpr (of_decide_eq_true h1)
        have hlo : lo ≤ d := hd3 lo rfl
        exact absurd (lt_of_le_of_lt (le_trans hlo hd2) hlt) (lt_irrefl lo)
    · rw [if_neg h1] at hfalse'
      by_cases h2 : rangeTo.any (fun hi => jsStrLt hi rf) = true
      · rcases rangeTo with _ | hi
        · simp [Option.any] at h2
        · simp only [Option.any] at h2
          have hlt : hi < rf := String.lt_iff_toList_lt.mpr (of_decide_eq_true h2)
          have hhi : d ≤ hi := hd4 hi rfl
          exact absurd (lt_of_le_of_lt (le_trans hd1 hhi) hlt) (lt_irrefl rf)
      · rw [if_neg h2] at hfalse'
        simp at hfalse'
  · intro hnone
    unfold isRecordInsideRange
    rcases hnf : normalizeDate record.dateFrom with _ | rf
    · rfl
    rcases hnt : normalizeDate record.dateTo with _ | rt
    · rfl
    rcases hnone with h | h
    · rw [h] at hnf
      exact absurd hnf (by simp)
    · rw [h] at hnt
      exact absurd hnt (by simp)

/-- Witness for C8: a record with an unparsable start date is kept for a
concrete requested range. -/
theorem C8_date_range_filter_witness :
    normalizeDate "brak daty" = none ∧
    isRecordInsideRange
      { apartment := "A/1", dateFrom := "brak daty", dateTo := "2023-06-30",
        metrics := [] } (some "2024-01-01") (some "2024-12-31") = true := by
  refine ⟨by decide, ?_⟩
  exact (C8_date_range_filter
    { apartment := "A/1", dateFrom := "brak daty", dateTo := "2023-06-30",
      metrics := [] } (some "2024-01-01") (some "2024-12-31")).2
    (Or.inl (by decide))

/-! ### Claim C10: combined validity of the on-screen summary -/

/-- Claim C10: each summary row's combined `isValid` is false when either
check is false, true only when the charge check is true and neither check is
false, and null when the charge check is indeterminate (even with a true
consumption check); the stats count exactly the true/false rows; with
validation disabled, `isValid`, `computedTotal` and `difference` are null on
every row. -/
theorem C10_summary_combined_validity (request : BuildExcelSummaryDto)
    (wb : ParsedExcelWorkbook) :
    ((buildSummaryData request wb).rows =
      (buildDetailedRows request wb
        (resolveSelectedMetrics request.metrics wb.headers)).map
        (summaryRowOf (request.includeValidation.getD true))) ∧
    (∀ d : DetailedSummaryRow, (summaryRowOf true d).isValid =
      (if d.consumptionIsValid = some false ∨ d.totalIsValid = some false then
        some false
       else if d.totalIsValid = some true then some true
       else none)) ∧
    ((buildSummaryData request wb).stats.validRows =
      ((buildSummaryData request wb).rows.filter
        (fun r => r.isValid == some true)).length) ∧
    ((buildSummaryData request wb).stats.invalidRows =
      ((buildSummaryData request wb).rows.filter
        (fun r => r.isValid == some false)).length) ∧
    (request.includeValidation = some false →
      ∀ r ∈ (buildSummaryData request wb).rows,
        r.isValid = none ∧ r.computedTotal = none ∧ r.difference = none) := by
  refine ⟨rfl, ?_, rfl, rfl, ?_⟩
  · intro d
    simp only [summaryRowOf]
    by_cases h1 : d.totalIsValid = some false
    · simp [h1]
    · by_cases h2 : d.consumptionIsValid = some false
      · simp [h1, h2]
      · simp [h1, h2]
  · intro hval r hr
    have hmap : (buildSummaryData request wb).rows =
        (buildDetailedRows request wb
          (resolveSelectedMetrics request.metrics wb.headers)).map
          (summaryRowOf (request.includeValidation.getD true)) := rfl
    rw [hmap, hval] at hr
    obtain ⟨d, _, rfl⟩ := List.mem_map.mp hr
    simp [summaryRowOf]

/-- Witness for C10's disabled-validation conjunct at a concrete workbook and
request. -/
theorem C10_summary_combined_validity_witness :
    (({ includeValidation := some false } : BuildExcelSummaryDto).includeValidation =
      some false) ∧
    (∀ r ∈ (buildSummaryData { includeValidation := some false } c1Workbook).rows,
      r.isValid = none ∧ r.computedTotal = none ∧ r.difference = none) :=
  ⟨rfl, (C10_summary_combined_validity { includeValidation := some false }
    c1Workbook).2.2.2.2 rfl⟩

/-! ### Claim C7: rate outlier detection via the dominant (mode) rate -/

theorem countOf_upsertCount (r k : ℚ) (f : List (ℚ × ℕ)) :
    countOf (upsertCount r f) k =
      if k = r then countOf f k + 1 else countOf f k := by
  induction f with
  | nil =>
    by_cases h : k = r
    · subst h
      simp [upsertCount, countOf]
    · simp [upsertCount, countOf, h, Ne.symm h]
  | cons e rest ih =>
    obtain ⟨a, n⟩ := e
    by_cases he : a = r
    · rw [show upsertCount r ((a, n) :: rest) = (a, n + 1) :: rest from by
        simp [upsertCount, he]]
      by_cases hk : k = a
      · subst hk
        simp [countOf, he, List.find?_cons]
      · have hkr : ¬ k = r := fun h => hk (h.trans he.symm)
        have hbeq : (a == k) = false := by simp [Ne.symm hk]
        simp [countOf, List.find?_cons, hbeq, hkr]
    · rw [show upsertCount r ((a, n) :: rest) = (a, n) :: upsertCount r rest from by
        simp [upsertCount, he]]
      by_cases hk : k = a
      · subst hk
        have hkr : ¬ k = r := he
        simp [countOf, List.find?_cons, hkr]
      · have hbeq : (a == k) = false := by simp [Ne.symm hk]
        have hfind : ∀ g : List (ℚ × ℕ), countOf ((a, n) :: g) k = countOf g k := by
          intro g
          simp [countOf, List.find?_cons, hbeq]
        simp only [hfind]
        exact ih

theorem countOf_foldl_upsert (rates : List ℚ) :
    ∀ (init : List (ℚ × ℕ)) (k : ℚ),
      countOf (rates.foldl (fun f r => upsertCount r f) init) k =
        countOf init k + rates.count k := by
  induction rates with
  | nil =>
    intro init k
    simp
  | cons r rest ih =>
    intro init k
    rw [List.foldl_cons, ih, countOf_upsertCount, List.count_cons]
    by_cases h : k = r
    · subst h
      simp only [if_pos rfl, beq_self_eq_true, if_true]
      omega
    · have : (r == k) = false := by simp [Ne.symm h]
      simp [h, this]

theorem keys_upsertCount (r : ℚ) (f : List (ℚ × ℕ)) :
    (upsertCount r f).map Prod.fst =
      if r ∈ f.map Prod.fst then f.map Prod.fst else f.map Prod.fst ++ [r] := by
  induction f with
  | nil => simp [upsertCount]
  | cons e rest ih =>
    obtain ⟨a, n⟩ := e
    by_cases ha : a = r
    · rw [show upsertCount r ((a, n) :: rest) = (a, n + 1) :: rest from by
        simp [upsertCount, ha]]
      rw [if_pos (by simp [ha])]
      simp
    · rw [show upsertCount r ((a, n) :: rest) = (a, n) :: upsertCount r rest from by
        simp [upsertCount, ha]]
      by_cases hr : r ∈ rest.map Prod.fst
      · rw [if_pos (by simp [hr])]
        simp only [List.map_cons, ih, if_pos hr]
      · rw [if_neg (by
          simp only [List.map_cons, List.mem_cons]
          rintro (h | h)
          · exact ha h.symm
          · exact hr h)]
        simp only [List.map_cons, ih, if_neg hr, List.cons_append]

theorem nodup_keys_upsertCount (r : ℚ) (f : List (ℚ × ℕ))
    (h : (f.map Prod.fst).Nodup) : ((upsertCount r f).map Prod.fst).Nodup := by
  rw [keys_upsertCount]
  by_cases hr : r ∈ f.map Prod.fst
  · rw [if_pos hr]
    exact h
  · rw [if_neg hr]
    rw [List.nodup_append]
    exact ⟨h, List.nodup_singleton r, by
      intro a ha hmem
      rw [List.mem_singleton] at hmem
      exact hr (hmem ▸ ha)⟩

theorem nodup_keys_foldl_upsert (rates : List ℚ) :
    ∀ init : List (ℚ × ℕ), (init.map Prod.fst).Nodup →
      ((rates.foldl (fun f r => upsertCount r f) init).map Prod.fst).Nodup := by
  induction rates with
  | nil =>
    intro init h
    exact h
  | cons r rest ih =>
    intro init h
    exact ih (upsertCount r init) (nodup_keys_upsertCount r init h)

theorem key_mem_of_mem_foldl_upsert (rates : List ℚ) :
    ∀ (init : List (ℚ × ℕ)) (e : ℚ × ℕ),
      e ∈ rates.foldl (fun f r => upsertCount r f) init →
      e.1 ∈ init.map Prod.fst ∨ e.1 ∈ rates := by
  induction rates with
  | nil =>
    intro init e he
    exact Or.inl (List.mem_map.mpr ⟨e, he, rfl⟩)
  | cons r rest ih =>
    intro init e he
    rcases ih (upsertCount r init) e he with h | h
    · rw [keys_upsertCount] at h
      by_cases hr : r ∈ init.map Prod.fst
      · rw [if_pos hr] at h
        exact Or.inl h
      · rw [if_neg hr] at h
        rcases List.mem_append.mp h with h1 | h1
        · exact Or.inl h1
        · rw [List.mem_singleton] at h1
          exact Or.inr (h1 ▸ List.mem_cons_self r rest)
    · exact Or.inr (List.mem_cons_of_mem r h)

theorem countOf_of_mem_nodup :
    ∀ {f : List (ℚ × ℕ)} {e : ℚ × ℕ},
      (f.map Prod.fst).Nodup → e ∈ f → countOf f e.1 = e.2 := by
  intro f
  induction f with
  | nil =>
    intro e _ he
    simp at he
  | cons g rest ih =>
    intro e hnodup he
    rcases List.mem_cons.mp he with rfl | hmem
    · simp [countOf, List.find?_cons]
    · have hne : g.1 ≠ e.1 := by
        intro hgk
        have : g.1 ∈ rest.map Prod.fst := List.mem_map.mpr ⟨e, hmem, hgk.symm⟩
        exact (List.nodup_cons.mp (by simpa using hnodup)).1 this
      have hbeq : (g.1 == e.1) = false := by simp [hne]
      have : countOf (g :: rest) e.1 = countOf rest e.1 := by
        simp [countOf, List.find?_cons, hbeq]
      rw [this]
      exact ih (List.nodup_cons.mp (by simpa using hnodup)).2 hmem

theorem scanDominant_spec (f : List (ℚ × ℕ)) :
    ∀ acc : ℚ × ℕ,
      (scanDominant f acc = acc ∨ scanDominant f acc ∈ f) ∧
      acc.2 ≤ (scanDominant f acc).2 ∧
      ∀ e ∈ f, e.2 ≤ (scanDominant f acc).2 := by
  induction f with
  | nil =>
    intro acc
    exact ⟨Or.inl rfl, le_refl _, by simp⟩
  | cons g rest ih =>
    intro acc
    have hstep : scanDominant (g :: rest) acc =
        scanDominant rest (if acc.2 < g.2 then g else acc) := rfl
    obtain ⟨hmem, hacc, hall⟩ := ih (if acc.2 < g.2 then g else acc)
    rw [hstep]
    refine ⟨?_, ?_, ?_⟩
    · rcases hmem with h | h
      · rw [h]
        by_cases hlt : acc.2 < g.2
        · rw [if_pos hlt]
          exact Or.inr (List.mem_cons_self g rest)
        · rw [if_neg hlt]
          exact Or.inl rfl
      · exact Or.inr (List.mem_cons_of_mem g h)
    · refine le_trans ?_ hacc
      by_cases hlt : acc.2 < g.2
      · rw [if_pos hlt]
        exact le_of_lt hlt
      · rw [if_neg hlt]
    · intro e he
      rcases List.mem_cons.mp he with rfl | hmem2
      · refine le_trans ?_ hacc
        by_cases hlt : acc.2 < e.2
        · rw [if_pos hlt]
        · rw [if_neg hlt]
          omega
      · exact hall e hmem2

/-- Claim C7: for each (metric, period) key the dominant rate is a mode of
the collected rates (it occurs and no rate occurs more often), and on the
concrete rates [1.0, 1.0, 1.0, 1.2] of one metric and period the export
payload flags exactly the 1.2 cell (row index 3, rate column offset 5 of the
default column set) as an outlier. -/
theorem C7_rate_outlier_mode :
    (∀ rates : List ℚ, rates ≠ [] →
      pickDominantRate rates ∈ rates ∧
        ∀ r ∈ rates, rates.count r ≤ rates.count (pickDominantRate rates)) ∧
    (buildExportPayload c7Rows DEFAULT_EXPORT_COLUMNS false).rateOutliers =
      [(3, 5)] := by
  constructor
  · intro rates hne
    obtain ⟨r0, rl, rfl⟩ : ∃ r0 rl, rates = r0 :: rl := by
      rcases rates with _ | ⟨r0, rl⟩
      · exact absurd rfl hne
      · exact ⟨r0, rl, rfl⟩
    have hnodup : (((r0 :: rl).foldl (fun f r => upsertCount r f) []).map
        Prod.fst).Nodup := nodup_keys_foldl_upsert (r0 :: rl) [] (by simp)
    have hcount : ∀ k, countOf ((r0 :: rl).foldl (fun f r => upsertCount r f) []) k =
        (r0 :: rl).count k := by
      intro k
      rw [countOf_foldl_upsert]
      simp [countOf]
    have hentry : ∀ k, k ∈ r0 :: rl →
        ∃ e ∈ (r0 :: rl).foldl (fun f r => upsertCount r f) [],
          e.1 = k ∧ e.2 = (r0 :: rl).count k := by
      intro k hk
      have hpos : 0 < (r0 :: rl).count k := List.count_pos_iff.mpr hk
      have hc := hcount k
      rcases hfind : ((r0 :: rl).foldl (fun f r => upsertCount r f) []).find?
          (fun e => e.1 == k) with _ | e
      · rw [countOf, hfind] at hc
        simp at hc
        omega
      · have hmem := List.mem_of_find?_eq_some hfind
        have hprop := List.find?_some hfind
        refine ⟨e, hmem, by simpa using hprop, ?_⟩
        rw [← hc, countOf, hfind]
        rfl
    have hpick : pickDominantRate (r0 :: rl) =
        (scanDominant ((r0 :: rl).foldl (fun f r => upsertCount r f) [])
          ((r0 :: rl).headD 0, 0)).1 := rfl
    obtain ⟨hmem, hacc, hall⟩ :=
      scanDominant_spec ((r0 :: rl).foldl (fun f r => upsertCount r f) [])
        ((r0 :: rl).headD 0, 0)
    have hresmem : scanDominant ((r0 :: rl).foldl (fun f r => upsertCount r f) [])
        ((r0 :: rl).headD 0, 0) ∈ (r0 :: rl).foldl (fun f r => upsertCount r f) [] := by
      rcases hmem with h | h
      · exfalso
        obtain ⟨e, hef, hek, hecnt⟩ := hentry r0 (List.mem_cons_self r0 rl)
        have hle := hall e hef
        rw [h] at hle
        have hpos : 0 < (r0 :: rl).count r0 :=
          List.count_pos_iff.mpr (List.mem_cons_self r0 rl)
        simp only at hle
        omega
      · exact h
    constructor
    · rcases key_mem_of_mem_foldl_upsert (r0 :: rl) [] _ hresmem with h | h
      · simp at h
      · rw [hpick]
        exact h
    · intro r hr
      obtain ⟨e, hef, hek, hecnt⟩ := hentry r hr
      have h1 := hall e hef
      have h2 := countOf_of_mem_nodup hnodup hresmem
      rw [hpick]
      calc (r0 :: rl).count r = e.2 := hecnt.symm
        _ ≤ (scanDominant ((r0 :: rl).foldl (fun f r => upsertCount r f) [])
            ((r0 :: rl).headD 0, 0)).2 := h1
        _ = countOf ((r0 :: rl).foldl (fun f r => upsertCount r f) [])
            (scanDominant ((r0 :: rl).foldl (fun f r => upsertCount r f) [])
              ((r0 :: rl).headD 0, 0)).1 := h2.symm
        _ = (r0 :: rl).count
            (scanDominant ((r0 :: rl).foldl (fun f r => upsertCount r f) [])
              ((r0 :: rl).headD 0, 0)).1 := hcount _
  · decide

/-- Witness for C7's mode statement at the concrete rate list
[1.0, 1.0, 1.0, 1.2]. -/
theorem C7_rate_outlier_mode_witness :
    (([mkRat 1 1, mkRat 1 1, mkRat 1 1, mkRat 12 10] : List ℚ) ≠ []) ∧
    pickDominantRate [mkRat 1 1, mkRat 1 1, mkRat 1 1, mkRat 12 10] ∈
      ([mkRat 1 1, mkRat 1 1, mkRat 1 1, mkRat 12 10] : List ℚ) ∧
    ∀ r ∈ ([mkRat 1 1, mkRat 1 1, mkRat 1 1, mkRat 12 10] : List ℚ),
      ([mkRat 1 1, mkRat 1 1, mkRat 1 1, mkRat 12 10] : List ℚ).count r ≤
        ([mkRat 1 1, mkRat 1 1, mkRat 1 1, mkRat 12 10] : List ℚ).count
          (pickDominantRate [mkRat 1 1, mkRat 1 1, mkRat 1 1, mkRat 12 10]) :=
  ⟨by decide,
    C7_rate_outlier_mode.1 [mkRat 1 1, mkRat 1 1, mkRat 1 1, mkRat 12 10] (by decide)⟩

/-! ### Claim C3: year-over-year comparison -/

/-- Claim C3 as stated is falsified by rounding: with annual consumptions
0.06 (2022) and 0.07 (2023), the emitted change percentage is 16.67 (the
quotient rounded to two decimals), not the exact difference/base*100 = 50/3
the claim specifies. -/
theorem C3_counterexample :
    ((buildYearOverYearExportRows c3Rows 12).map (·.changePercent) =
      [some (mkRat 1667 100)]) ∧
    ((buildYearOverYearExportRows c3Rows 12).map (·.difference) = [mkRat 1 100]) ∧
    ((buildYearOverYearExportRows c3Rows 12).map (·.baseConsumption) = [mkRat 6 100]) ∧
    mkRat 1667 100 ≠ mkRat 1 100 / mkRat 6 100 * 100 := by
  refine ⟨by decide, by decide, by decide, ?_⟩
  rw [Rat.mkRat_eq_div, Rat.mkRat_eq_div, Rat.mkRat_eq_div]
  intro h
  norm_num at h

/-- Claim C3 (amended): every emitted year-over-year row satisfies
difference = roundTo2(compare - base), changePercent = null when the base
consumption is within tolerance of 0 and otherwise
roundTo2(difference/base*100), trend "Bez zmian"/"Wzrost"/"Spadek" by the
tolerance and the sign of the difference, and compares consecutive years;
the annual consumption of a year is roundTo2(last end reading - first start
reading) over the chronologically sorted periods; the 100 (2022) to 80
(2023) example yields difference -20, changePercent -20 and trend "Spadek". -/
theorem C3_year_over_year (detailedRows : List DetailedSummaryRow) (month : ℤ) :
    (∀ row ∈ buildYearOverYearExportRows detailedRows month,
      row.difference = roundTo2 (row.compareConsumption - row.baseConsumption) ∧
      row.changePercent =
        (if |row.baseConsumption| ≤ VALIDATION_TOLERANCE then none
         else some (roundTo2 (row.difference / row.baseConsumption * 100))) ∧
      row.trend =
        (if |row.difference| ≤ VALIDATION_TOLERANCE then "Bez zmian"
         else if 0 < row.difference then "Wzrost" else "Spadek") ∧
      row.compareYear = row.baseYear + 1) ∧
    (∀ (year : ℤ) (ps : List YoYPeriod) (d : AnnualData),
      yoyYearData month year ps = some d →
      ∃ first last, (sortYoYPeriods ps).head? = some first ∧
        (sortYoYPeriods ps).getLast? = some last ∧
        d.consumption = roundTo2 (last.stop - first.start)) ∧
    ((buildYearOverYearExportRows c3ExampleRows 12).map (·.baseYear) = [(2022 : ℤ)] ∧
      (buildYearOverYearExportRows c3ExampleRows 12).map (·.compareYear) = [(2023 : ℤ)] ∧
      (buildYearOverYearExportRows c3ExampleRows 12).map (·.baseConsumption) =
        [mkRat 100 1] ∧
      (buildYearOverYearExportRows c3ExampleRows 12).map (·.compareConsumption) =
        [mkRat 80 1] ∧
      (buildYearOverYearExportRows c3ExampleRows 12).map (·.difference) =
        [mkRat (-20) 1] ∧
      (buildYearOverYearExportRows c3ExampleRows 12).map (·.changePercent) =
        [some (mkRat (-20) 1)] ∧
      (buildYearOverYearExportRows c3ExampleRows 12).map (·.trend) = ["Spadek"]) := by
  refine ⟨?_, ?_, by decide, by decide, by decide, by decide, by decide, by decide,
    by decide⟩
  · intro row hrow
    rw [buildYearOverYearExportRows] at hrow
    have hrow' := (List.perm_insertionSort
      (fun a b => yoyRowCmp a b ≤ 0) _).mem_iff.mp hrow
    obtain ⟨g, _, hrowg⟩ := List.mem_flatMap.mp hrow'
    rw [yoyGroupRows] at hrowg
    split at hrowg
    · simp at hrowg
    · obtain ⟨cy, _, hf⟩ := List.mem_filterMap.mp hrowg
      dsimp only at hf
      rcases hb : lookupYear (List.filterMap
          (fun e => Option.map (fun d => (e.1, d)) (yoyYearData month e.1 e.2))
          g.periodsByYear) (cy - 1) with _ | bd
      · rw [hb] at hf
        simp at hf
      rcases hc : lookupYear (List.filterMap
          (fun e => Option.map (fun d => (e.1, d)) (yoyYearData month e.1 e.2))
          g.periodsByYear) cy with _ | cd
      · rw [hb, hc] at hf
        simp at hf
      rw [hb, hc] at hf
      simp only [Option.some.injEq] at hf
      subst hf
      refine ⟨by simp [rSub_eq], ?_, ?_, by simp⟩
      · simp only [rAbs_eq, rDiv_eq, rMul_eq, rSub_eq,
          show (mkRat 100 1 : ℚ) = 100 from by rw [Rat.mkRat_eq_div]; norm_num]
      · simp only [rAbs_eq, rSub_eq]
  · intro year ps d hd
    rw [yoyYearData] at hd
    rcases hs : sortYoYPeriods ps with _ | ⟨f0, rest⟩ <;> rw [hs] at hd
    · simp at hd
    · simp only [Option.some.injEq] at hd
      have hlast : (f0 :: rest).getLast? = some ((f0 :: rest).getLastD f0) := by
        rw [List.getLastD_eq_getLast?]
        rcases hl : (f0 :: rest).getLast? with _ | x
        · exact absurd hl (by simp)
        · rfl
      refine ⟨f0, (f0 :: rest).getLastD f0, rfl, hlast, ?_⟩
      rw [← hd]
      simp [rSub_eq]

/-- Witness for C3's hypothesis-carrying conjuncts: the emitted example row
and a concrete year's annual data. -/
theorem C3_year_over_year_witness :
    (∀ row ∈ buildYearOverYearExportRows c3ExampleRows 12,
      row.difference = roundTo2 (row.compareConsumption - row.baseConsumption)) ∧
    (yoyYearData 12 2023 [⟨mkRat 100 1, mkRat 180 1, 19358 * 86400000,
        19722 * 86400000, 12⟩] = some ⟨mkRat 80 1, none⟩ ∧
      ∃ first last,
        (sortYoYPeriods [⟨mkRat 100 1, mkRat 180 1, 19358 * 86400000,
          19722 * 86400000, 12⟩]).head? = some first ∧
        (sortYoYPeriods [⟨mkRat 100 1, mkRat 180 1, 19358 * 86400000,
          19722 * 86400000, 12⟩]).getLast? = some last ∧
        (mkRat 80 1 : ℚ) = roundTo2 (last.stop - first.start)) := by
  constructor
  · intro row hrow
    exact ((C3_year_over_year c3ExampleRows 12).1 row hrow).1
  · refine ⟨by decide, ?_⟩
    have h := (C3_year_over_year [] 12).2.1 2023
      [⟨mkRat 100 1, mkRat 180 1, 19358 * 86400000, 19722 * 86400000, 12⟩]
      ⟨mkRat 80 1, none⟩ (by decide)
    simpa using h

/-- The keys after a yearly upsert: unchanged when the key is present,
appended otherwise. -/
theorem keys_insertYearlyRow (key : String) (row : DetailedSummaryRow)
    (iv : ℤ × ℤ) (a b c : String) (y : ℤ) (l : List (String × YearlyGroup)) :
    (insertYearlyRow key row iv a b c y l).map Prod.fst =
      if key ∈ l.map Prod.fst then l.map Prod.fst
      else l.map Prod.fst ++ [key] := by
  induction l with
  | nil => simp [insertYearlyRow]
  | cons e rest ih =>
    obtain ⟨k, g⟩ := e
    by_cases hk : k = key
    · subst hk
      simp [insertYearlyRow]
    · rw [insertYearlyRow, if_neg hk]
      simp only [List.map_cons, ih, List.mem_cons]
      by_cases hmem : key ∈ rest.map Prod.fst
      · simp [hmem]
      · simp [hmem, Ne.symm hk]

/-- A yearly upsert with a consistent key preserves the grouping invariant. -/
theorem insertYearlyRow_inv {key : String} {row : DetailedSummaryRow}
    {iv : ℤ × ℤ} {a b c : String} {y : ℤ} {l : List (String × YearlyGroup)}
    (hkey : key = yearlyKeyOf a b c y) (h : YearlyInv l) :
    YearlyInv (insertYearlyRow key row iv a b c y l) := by
  obtain ⟨hnd, hc⟩ := h
  constructor
  · rw [keys_insertYearlyRow]
    by_cases hmem : key ∈ l.map Prod.fst
    · rw [if_pos hmem]; exact hnd
    · rw [if_neg hmem]
      simp only [List.nodup_append, List.nodup_cons, List.not_mem_nil,
        List.nodup_nil, and_true, not_false_eq_true, true_and, List.disjoint_singleton]
      exact ⟨hnd, hmem⟩
  · clear hnd
    induction l with
    | nil =>
      intro e he
      simp only [insertYearlyRow, List.mem_singleton] at he
      subst he
      exact hkey
    | cons e0 rest ih =>
      obtain ⟨k, g⟩ := e0
      by_cases hk : k = key
      · subst hk
        intro e he
        rw [insertYearlyRow, if_pos rfl] at he
        rcases List.mem_cons.mp he with he | he
        · subst he
          exact hc (k, g) (List.mem_cons_self _ _)
        · exact hc e (List.mem_cons_of_mem _ he)
      · intro e he
        rw [insertYearlyRow, if_neg hk] at he
        rcases List.mem_cons.mp he with he | he
        · subst he
          exact hc (k, g) (List.mem_cons_self _ _)
        · exact ih (fun e' he' => hc e' (List.mem_cons_of_mem _ he')) e he

/-- One grouping step preserves the yearly invariant. -/
theorem yearlyGroupStep_inv {l : List (String × YearlyGroup)}
    {row : DetailedSummaryRow} (h : YearlyInv l) :
    YearlyInv (yearlyGroupStep l row) := by
  rw [yearlyGroupStep]
  split
  · split
    · exact h
    · exact insertYearlyRow_inv rfl h
  · exact h

/-- The yearly grouping map satisfies its invariant: distinct keys, each the
key string of its group's fields. -/
theorem yearlyGroups_inv (rows : List DetailedSummaryRow) :
    YearlyInv (buildYearlyGroups rows) := by
  rw [buildYearlyGroups]
  have h : ∀ l : List (String × YearlyGroup), YearlyInv l →
      YearlyInv (rows.foldl yearlyGroupStep l) := by
    induction rows with
    | nil => intro l h; exact h
    | cons r rs ih =>
      intro l h
      exact ih _ (yearlyGroupStep_inv h)
  exact h [] ⟨by simp, by simp⟩

/-- In a list of keyed entries with distinct keys, a key determines the
entry. -/
theorem snd_unique_of_nodup_keys {l : List (String × YearlyGroup)}
    (hnd : (l.map Prod.fst).Nodup) {k : String} {g g' : YearlyGroup}
    (h : (k, g) ∈ l) (h' : (k, g') ∈ l) : g = g' := by
  induction l with
  | nil => cases h
  | cons e rest ih =>
    rw [List.map_cons, List.nodup_cons] at hnd
    rcases List.mem_cons.mp h with he | he
    · rcases List.mem_cons.mp h' with he' | he'
      · rw [← he] at he'
        exact (Prod.ext_iff.mp he').2.symm
      · exfalso
        exact hnd.1 (he ▸ (List.mem_map_of_mem Prod.fst he' : k ∈ rest.map Prod.fst))
    · rcases List.mem_cons.mp h' with he' | he'
      · exfalso
        exact hnd.1 (he' ▸ (List.mem_map_of_mem Prod.fst he : k ∈ rest.map Prod.fst))
      · exact ih hnd.2 he he'

/-- Two groups of the yearly map with the same address, apartment, metric
and year are the same group. -/
theorem yearlyGroup_unique {rows : List DetailedSummaryRow}
    {g g' : YearlyGroup}
    (hg : g ∈ (buildYearlyGroups rows).map Prod.snd)
    (hg' : g' ∈ (buildYearlyGroups rows).map Prod.snd)
    (ha : g'.address = g.address) (hb : g'.apartment = g.apartment)
    (hm : g'.metric = g.metric) (hy : g'.year = g.year) : g' = g := by
  obtain ⟨ek, hk, hg0⟩ := List.mem_map.mp hg
  obtain ⟨ek', hk', hg0'⟩ := List.mem_map.mp hg'
  obtain ⟨hnd, hc⟩ := yearlyGroups_inv rows
  have e1 : ek.1 = yearlyKeyOf g.address g.apartment g.metric g.year := by
    rw [← hg0]; exact hc _ hk
  have e2 : ek'.1 = yearlyKeyOf g'.address g'.apartment g'.metric g'.year := by
    rw [← hg0']; exact hc _ hk'
  have hkk : ek'.1 = ek.1 := by rw [e1, e2, ha, hb, hm, hy]
  have hkg : (ek.1, g) ∈ buildYearlyGroups rows := by
    rw [← hg0]; exact hk
  have hkg' : (ek'.1, g') ∈ buildYearlyGroups rows := by
    rw [← hg0']; exact hk'
  rw [hkk] at hkg'
  exact snd_unique_of_nodup_keys hnd hkg' hkg

/-- The first four values of a built yearly row. -/
theorem yearly_take_four {α} (a b c d : α) (l : List α) :
    (a :: b :: c :: d :: l).take 4 = [a, b, c, d] := rfl

/-- Claim C2: the yearly builder emits a row carrying a group's address,
apartment, metric and year exactly when the group's timestamp intervals,
clipped to the candidate year and merged when overlapping or at most one day
apart, form a single interval covering the whole year; the two adjacent
half-year periods of 2023 yield exactly one annual row for 2023, and the
same periods with a ten-day gap yield none. -/
theorem C2_full_year_coverage (detailedRows : List DetailedSummaryRow) :
    (∀ g ∈ (buildYearlyGroups detailedRows).map Prod.snd,
      ((∃ row ∈ buildYearlyExportRows detailedRows,
          row.values.take 4 = [JsValue.str g.address, JsValue.str g.apartment,
            JsValue.str g.metric, JsValue.num (mkRat g.year 1)]) ↔
        isFullYearCoverage g.intervals g.year = true)) ∧
    ((buildYearlyExportRows c2AdjacentRows).map (fun r => r.values.take 4) =
      [[JsValue.str "A", JsValue.str "1", JsValue.str "Woda",
        JsValue.num (mkRat 2023 1)]]) ∧
    buildYearlyExportRows c2GapRows = [] := by
  refine ⟨?_, by decide, by decide⟩
  intro g hg
  constructor
  · rintro ⟨row, hrow, htake⟩
    rw [buildYearlyExportRows] at hrow
    obtain ⟨g', hg'f, hbuild⟩ := List.mem_map.mp hrow
    have hfil := List.mem_filter.mp hg'f
    have hg'mem : g' ∈ (buildYearlyGroups detailedRows).map Prod.snd :=
      (List.perm_insertionSort (fun a b => yearlyGroupCmp a b ≤ 0) _).mem_iff.mp hfil.1
    have hcov : isFullYearCoverage g'.intervals g'.year = true := hfil.2
    rw [← hbuild] at htake
    dsimp only at htake
    rw [yearly_take_four] at htake
    simp only [List.cons.injEq, JsValue.str.injEq, JsValue.num.injEq,
      and_true] at htake
    obtain ⟨ha, hb, hm, hyq⟩ := htake
    have hy : g'.year = g.year := by
      rw [Rat.mkRat_one, Rat.mkRat_one] at hyq
      exact_mod_cast hyq
    rw [← yearlyGroup_unique hg hg'mem ha hb hm hy]
    exact hcov
  · intro hcov
    rw [buildYearlyExportRows]
    have hgs : g ∈ List.insertionSort (fun a b => yearlyGroupCmp a b ≤ 0)
        ((buildYearlyGroups detailedRows).map Prod.snd) :=
      (List.perm_insertionSort (fun a b => yearlyGroupCmp a b ≤ 0) _).mem_iff.mpr hg
    have hf : g ∈ (List.insertionSort (fun a b => yearlyGroupCmp a b ≤ 0)
        ((buildYearlyGroups detailedRows).map Prod.snd)).filter
        (fun g => isFullYearCoverage g.intervals g.year) :=
      List.mem_filter.mpr ⟨hgs, hcov⟩
    exact ⟨_, List.mem_map_of_mem _ hf, rfl⟩

/-- Witness for C2's general conjunct: the adjacent-coverage fixture's group
is emitted. -/
theorem C2_full_year_coverage_witness :
    ∃ g ∈ (buildYearlyGroups c2AdjacentRows).map Prod.snd,
      ∃ row ∈ buildYearlyExportRows c2AdjacentRows,
        row.values.take 4 = [JsValue.str g.address, JsValue.str g.apartment,
          JsValue.str g.metric, JsValue.num (mkRat g.year 1)] := by
  rcases hG : (buildYearlyGroups c2AdjacentRows).map Prod.snd with _ | ⟨g, rest⟩
  · exact absurd hG (by decide)
  · have hmem : g ∈ (buildYearlyGroups c2AdjacentRows).map Prod.snd := by
      rw [hG]; exact List.mem_cons_self _ _
    have hall : ((buildYearlyGroups c2AdjacentRows).map Prod.snd).all
        (fun g => isFullYearCoverage g.intervals g.year) = true := by decide
    have hcov : isFullYearCoverage g.intervals g.year = true :=
      List.all_eq_true.mp hall g hmem
    exact ⟨g, List.mem_cons_self _ _,
      ((C2_full_year_coverage c2AdjacentRows).1 g hmem).mpr hcov⟩

/-- The scan loop's result does not depend on the iteration budget, as long
as the budget covers the remaining rows. -/
theorem parseBlocksLoopF_congr (ws : Worksheet) (hc : List (String × ℕ)) :
    ∀ f f' row : ℕ, wsEndRow ws + 1 - row ≤ f → wsEndRow ws + 1 - row ≤ f' →
      parseBlocksLoopF ws hc f row = parseBlocksLoopF ws hc f' row := by
  intro f
  induction f with
  | zero =>
    intro f' row h h'
    have hrow : ¬ row ≤ wsEndRow ws := by omega
    cases f' with
    | zero => rfl
    | succ g' =>
      simp only [parseBlocksLoopF]
      rw [if_neg hrow]
  | succ g ih =>
    intro f' row h h'
    by_cases hrow : row ≤ wsEndRow ws
    · cases f' with
      | zero => exact absurd h' (by omega)
      | succ g' =>
        simp only [parseBlocksLoopF]
        rw [if_pos hrow, if_pos hrow]
        by_cases hempty : wsCellText ws row 0 = "" ∨ wsCellText ws row 1 = ""
        · rw [if_pos hempty, if_pos hempty]
          exact ih g' (row + 1) (by omega) (by omega)
        · rw [if_neg hempty, if_neg hempty]
          by_cases hshort : wsEndRow ws < row + 4
          · rw [if_pos hshort, if_pos hshort]
          · rw [if_neg hshort, if_neg hshort]
            rw [ih g' (row + 5) (by omega) (by omega)]
    · cases f' with
      | zero =>
        simp only [parseBlocksLoopF]
        rw [if_neg hrow]
      | succ g' =>
        simp only [parseBlocksLoopF]
        rw [if_neg hrow, if_neg hrow]

/-- An empty apartment or period-start cell makes the scan advance one
row. -/
theorem parseBlocksLoop_advance (ws : Worksheet) (hc : List (String × ℕ))
    (row : ℕ) (hrow : row ≤ wsEndRow ws)
    (hempty : wsCellText ws row 0 = "" ∨ wsCellText ws row 1 = "") :
    parseBlocksLoop ws hc row = parseBlocksLoop ws hc (row + 1) := by
  rw [parseBlocksLoop, parseBlocksLoop]
  have h1 : wsEndRow ws + 1 - row = (wsEndRow ws + 1 - (row + 1)) + 1 := by
    omega
  rw [h1]
  simp only [parseBlocksLoopF]
  rw [if_pos hrow, if_pos hempty]

/-- A block start with five rows available emits a record and jumps five
rows. -/
theorem parseBlocksLoop_emit (ws : Worksheet) (hc : List (String × ℕ))
    (row : ℕ) (hrow : row ≤ wsEndRow ws) (h0 : wsCellText ws row 0 ≠ "")
    (h1 : wsCellText ws row 1 ≠ "") (hfit : row + 4 ≤ wsEndRow ws) :
    parseBlocksLoop ws hc row =
      blockRecordOf ws hc row :: parseBlocksLoop ws hc (row + 5) := by
  rw [parseBlocksLoop, parseBlocksLoop]
  have hf : wsEndRow ws + 1 - row = (wsEndRow ws - row) + 1 := by omega
  rw [hf]
  simp only [parseBlocksLoopF]
  rw [if_pos hrow, if_neg (not_or.mpr ⟨h0, h1⟩),
    if_neg (show ¬ wsEndRow ws < row + 4 from by omega)]
  rw [parseBlocksLoopF_congr ws hc (wsEndRow ws - row) (wsEndRow ws + 1 - (row + 5))
    (row + 5) (by omega) (by omega)]

/-- A block start with fewer than five rows remaining stops the scan. -/
theorem parseBlocksLoop_stop (ws : Worksheet) (hc : List (String × ℕ))
    (row : ℕ) (hrow : row ≤ wsEndRow ws) (h0 : wsCellText ws row 0 ≠ "")
    (h1 : wsCellText ws row 1 ≠ "") (hshort : wsEndRow ws < row + 4) :
    parseBlocksLoop ws hc row = [] := by
  rw [parseBlocksLoop]
  have hf : wsEndRow ws + 1 - row = (wsEndRow ws - row) + 1 := by omega
  rw [hf]
  simp only [parseBlocksLoopF]
  rw [if_pos hrow, if_neg (not_or.mpr ⟨h0, h1⟩), if_pos hshort]

/-- Scanning a suffix made of well-formed five-row blocks yields one record
per block. -/
theorem parseBlocksLoop_blocks (ws : Worksheet) (hc : List (String × ℕ))
    (B : List (List (List String))) :
    ∀ row : ℕ,
      (∀ b ∈ B, b.length = 5 ∧
        ((b.head?.bind (fun r => r[0]?)).getD "" ≠ "" ∧
         (b.head?.bind (fun r => r[1]?)).getD "" ≠ "")) →
      ws.rows.drop row = B.flatten →
      ws.rows.length = row + B.flatten.length → 1 ≤ ws.rows.length →
      (parseBlocksLoop ws hc row).length = B.length := by
  induction B with
  | nil =>
    intro row _ _ hlen hpos
    simp only [List.flatten_nil, List.length_nil, Nat.add_zero] at hlen
    rw [parseBlocksLoop]
    have h0 : wsEndRow ws + 1 - row = 0 := by
      rw [wsEndRow]; omega
    rw [h0]
    rfl
  | cons b rest ih =>
    intro row hwf hdrop hlen hpos
    obtain ⟨hb5, hb0, hb1⟩ := hwf b (List.mem_cons_self _ _)
    rw [List.flatten_cons] at hdrop hlen
    rw [List.length_append, hb5] at hlen
    rcases hB : b with _ | ⟨r0, btl⟩
    · rw [hB] at hb5; simp at hb5
    rw [hB] at hdrop hb0 hb1
    have hget : ws.rows[row]? = some r0 := by
      have h := List.getElem?_drop ws.rows row 0
      rw [Nat.add_zero] at h
      rw [← h, hdrop]
      simp
    have h0 : wsCellText ws row 0 ≠ "" := by
      rw [wsCellText, hget]
      simpa using hb0
    have h1 : wsCellText ws row 1 ≠ "" := by
      rw [wsCellText, hget]
      simpa using hb1
    have hrow : row ≤ wsEndRow ws := by rw [wsEndRow]; omega
    have hfit : row + 4 ≤ wsEndRow ws := by rw [wsEndRow]; omega
    rw [parseBlocksLoop_emit ws hc row hrow h0 h1 hfit, List.length_cons,
      List.length_cons]
    have hdrop' : ws.rows.drop (row + 5) = rest.flatten := by
      have h5 : ws.rows.drop (row + 5) = (ws.rows.drop row).drop 5 := by
        rw [List.drop_drop]
      rw [h5, hdrop]
      have : ((r0 :: btl) ++ rest.flatten).drop 5 = rest.flatten := by
        have hlb : (r0 :: btl).length = 5 := by rw [← hB]; exact hb5
        rw [← hlb, List.drop_left]
      simpa using this
    rw [ih (row + 5) (fun b hb => hwf b (List.mem_cons_of_mem _ hb)) hdrop'
      (by omega) hpos]

/-- Claim C5: with at least one non-empty metric header column, the block
parser advances one row past a block start with an empty apartment or
period-start cell, emits one record and jumps five rows at a complete
well-formed block start, stops when fewer than five rows remain, and parses
a worksheet made of a header row followed by N well-formed five-row blocks
to exactly N records. -/
theorem C5_block_scan (ws : Worksheet) (header : List String)
    (B : List (List (List String)))
    (hrows : ws.rows = header :: B.flatten)
    (hhc : ¬ headerColumnsOf ws = [])
    (hwf : ∀ b ∈ B, b.length = 5 ∧
      ((b.head?.bind (fun r => r[0]?)).getD "" ≠ "" ∧
       (b.head?.bind (fun r => r[1]?)).getD "" ≠ "")) :
    (∀ row, row ≤ wsEndRow ws →
      (wsCellText ws row 0 = "" ∨ wsCellText ws row 1 = "") →
      parseBlocksLoop ws (headerColumnsOf ws) row =
        parseBlocksLoop ws (headerColumnsOf ws) (row + 1)) ∧
    (∀ row, row ≤ wsEndRow ws → wsCellText ws row 0 ≠ "" →
      wsCellText ws row 1 ≠ "" → row + 4 ≤ wsEndRow ws →
      parseBlocksLoop ws (headerColumnsOf ws) row =
        blockRecordOf ws (headerColumnsOf ws) row ::
          parseBlocksLoop ws (headerColumnsOf ws) (row + 5)) ∧
    (∀ row, row ≤ wsEndRow ws → wsCellText ws row 0 ≠ "" →
      wsCellText ws row 1 ≠ "" → wsEndRow ws < row + 4 →
      parseBlocksLoop ws (headerColumnsOf ws) row = []) ∧
    ∃ wb, parseWorksheetBlocks ws = .ok wb ∧
      wb.records.length = B.length ∧ wb.recordCount = B.length := by
  refine ⟨fun row hr he => parseBlocksLoop_advance ws _ row hr he,
    fun row hr h0 h1 hf => parseBlocksLoop_emit ws _ row hr h0 h1 hf,
    fun row hr h0 h1 hs => parseBlocksLoop_stop ws _ row hr h0 h1 hs, ?_⟩
  have hne : ws.rows ≠ [] := by rw [hrows]; exact List.cons_ne_nil _ _
  have hcount : (parseBlocksLoop ws (headerColumnsOf ws) 1).length = B.length := by
    refine parseBlocksLoop_blocks ws (headerColumnsOf ws) B 1 hwf ?_ ?_ ?_
    · rw [hrows]; rfl
    · rw [hrows]; simp [Nat.add_comm]
    · rw [hrows]; simp
  simp only [parseWorksheetBlocks, if_neg hne, if_neg hhc]
  exact ⟨_, rfl, hcount, hcount⟩

/-- Witness for C5: the two-block fixture worksheet parses to exactly two
records. -/
theorem C5_block_scan_witness :
    ∃ wb, parseWorksheetBlocks c5Ws = .ok wb ∧
      wb.records.length = 2 ∧ wb.recordCount = 2 := by
  have h := (C5_block_scan c5Ws c5Header c5Blocks rfl (by decide)
    (by decide)).2.2.2
  simpa using h

/-- The merge comparator is at most zero exactly when the lexicographic
(apartment, normalized dateFrom, normalized dateTo) key is ordered. -/
theorem mergeSortKey_le_iff (a b : ParsedExcelRecord) :
    mergeRecordCmp a b ≤ 0 ↔ mergeSortKey a ≤ mergeSortKey b := by
  simp only [mergeRecordCmp, jsCompareStrings, mergeSortKey]
  rcases lt_trichotomy a.apartment.data b.apartment.data with h1 | h1 | h1
  · simp [h1, ne_of_lt h1, Prod.Lex.le_iff]
  · rcases lt_trichotomy ((normalizeDate a.dateFrom).getD "").data
        ((normalizeDate b.dateFrom).getD "").data with h2 | h2 | h2
    · simp [h1, lt_irrefl, h2, ne_of_lt h2, Prod.Lex.le_iff]
    · rcases lt_trichotomy ((normalizeDate a.dateTo).getD "").data
          ((normalizeDate b.dateTo).getD "").data with h3 | h3 | h3
      · simp [h1, h2, h3, lt_irrefl, le_of_lt h3, Prod.Lex.le_iff]
      · simp [h1, h2, h3, lt_irrefl, Prod.Lex.le_iff]
      · simp [h1, h2, lt_irrefl, asymm h3, ne_of_gt h3, not_le.mpr h3,
          Prod.Lex.le_iff]
    · simp [h1, lt_irrefl, asymm h2, ne_of_gt h2, Prod.Lex.le_iff]
  · simp [asymm h1, ne_of_gt h1, Prod.Lex.le_iff]

instance : IsTotal ParsedExcelRecord (fun a b => mergeRecordCmp a b ≤ 0) :=
  ⟨fun a b => (le_total (mergeSortKey a) (mergeSortKey b)).imp
    (mergeSortKey_le_iff a b).mpr (mergeSortKey_le_iff b a).mpr⟩

instance : IsTrans ParsedExcelRecord (fun a b => mergeRecordCmp a b ≤ 0) :=
  ⟨fun a b c hab hbc => (mergeSortKey_le_iff a c).mpr
    (le_trans ((mergeSortKey_le_iff a b).mp hab) ((mergeSortKey_le_iff b c).mp hbc))⟩

/-- Membership through the first-occurrence dedup fold. -/
theorem mem_foldl_dedup (xs : List String) :
    ∀ (acc : List String) (x : String),
      x ∈ xs.foldl (fun acc x => if acc.contains x then acc else acc ++ [x]) acc ↔
        x ∈ acc ∨ x ∈ xs := by
  induction xs with
  | nil => intro acc x; simp
  | cons y ys ih =>
    intro acc x
    rw [List.foldl_cons, ih]
    by_cases hc : acc.contains y = true
    · rw [if_pos hc]
      have hy : y ∈ acc := by simpa using hc
      constructor
      · rintro (h | h)
        · exact Or.inl h
        · exact Or.inr (List.mem_cons_of_mem _ h)
      · rintro (h | h)
        · exact Or.inl h
        · rcases List.mem_cons.mp h with rfl | h
          · exact Or.inl hy
          · exact Or.inr h
    · rw [if_neg hc]
      simp [List.mem_append, or_assoc]

/-- Deduplicated headers contain exactly the input headers. -/
theorem mem_firstOccurrenceDedup (xs : List String) (x : String) :
    x ∈ firstOccurrenceDedup xs ↔ x ∈ xs := by
  rw [firstOccurrenceDedup, mem_foldl_dedup]
  simp

/-- The first-occurrence dedup fold preserves distinctness. -/
theorem nodup_foldl_dedup (xs : List String) :
    ∀ acc : List String, acc.Nodup →
      (xs.foldl (fun acc x => if acc.contains x then acc else acc ++ [x]) acc).Nodup := by
  induction xs with
  | nil => intro acc h; exact h
  | cons y ys ih =>
    intro acc h
    rw [List.foldl_cons]
    by_cases hc : acc.contains y = true
    · rw [if_pos hc]; exact ih acc h
    · rw [if_neg hc]
      refine ih _ ?_
      simp only [List.nodup_append, List.nodup_cons, List.not_mem_nil,
        List.nodup_nil, and_true, not_false_eq_true, true_and,
        List.disjoint_singleton]
      exact ⟨h, by simpa using hc⟩

/-- Deduplicated headers are distinct. -/
theorem nodup_firstOccurrenceDedup (xs : List String) :
    (firstOccurrenceDedup xs).Nodup :=
  nodup_foldl_dedup xs [] List.nodup_nil

/-- The keys after a merge upsert: unchanged when the key is present,
appended otherwise. -/
theorem keys_upsertMergeRecord (key : String) (r : ParsedExcelRecord)
    (l : List (String × ParsedExcelRecord)) :
    (upsertMergeRecord key r l).map Prod.fst =
      if key ∈ l.map Prod.fst then l.map Prod.fst
      else l.map Prod.fst ++ [key] := by
  induction l with
  | nil => simp [upsertMergeRecord]
  | cons e rest ih =>
    obtain ⟨k, x⟩ := e
    by_cases hk : k = key
    · subst hk
      simp [upsertMergeRecord]
    · rw [upsertMergeRecord, if_neg hk]
      simp only [List.map_cons, ih, List.mem_cons]
      by_cases hmem : key ∈ rest.map Prod.fst
      · simp [hmem]
      · simp [hmem, Ne.symm hk]

/-- Every value of an upserted map is the inserted record or an original
value. -/
theorem snd_mem_upsertMergeRecord {key : String} {r x : ParsedExcelRecord}
    {l : List (String × ParsedExcelRecord)}
    (h : x ∈ (upsertMergeRecord key r l).map Prod.snd) :
    x = r ∨ x ∈ l.map Prod.snd := by
  induction l with
  | nil =>
    simp only [upsertMergeRecord, List.map_cons, List.map_nil,
      List.mem_singleton] at h
    exact Or.inl h
  | cons e rest ih =>
    obtain ⟨k, y⟩ := e
    rw [upsertMergeRecord] at h
    by_cases hk : k = key
    · rw [if_pos hk] at h
      rcases List.mem_cons.mp h with h | h
      · exact Or.inl h
      · exact Or.inr (List.mem_cons_of_mem _ h)
    · rw [if_neg hk] at h
      rcases List.mem_cons.mp h with h | h
      · exact Or.inr (h ▸ List.mem_cons_self _ _)
      · rcases ih h with h | h
        · exact Or.inl h
        · exact Or.inr (List.mem_cons_of_mem _ h)

/-- The keys after folding upserts over pairs with fresh distinct keys are
the original keys followed by the pairs' keys. -/
theorem foldl_upsert_keys (pairs : List (String × ParsedExcelRecord)) :
    ∀ acc : List (String × ParsedExcelRecord),
      ((pairs.map Prod.fst) ++ acc.map Prod.fst).Nodup →
      ((pairs.foldl (fun a e => upsertMergeRecord e.1 e.2 a) acc).map Prod.fst) =
        acc.map Prod.fst ++ pairs.map Prod.fst := by
  induction pairs with
  | nil => intro acc _; simp
  | cons e rest ih =>
    obtain ⟨k, r⟩ := e
    intro acc hnd
    simp only [List.map_cons, List.cons_append, List.nodup_cons,
      List.mem_append] at hnd
    have hkacc : k ∉ acc.map Prod.fst := fun h => hnd.1 (Or.inr h)
    rw [List.foldl_cons, ih _ ?hnd']
    case hnd' =>
      rw [keys_upsertMergeRecord, if_neg hkacc]
      have hcons : (k :: (rest.map Prod.fst ++ acc.map Prod.fst)).Nodup :=
        List.nodup_cons.mpr ⟨by rw [List.mem_append]; exact hnd.1, hnd.2⟩
      have hperm : (rest.map Prod.fst ++ (acc.map Prod.fst ++ [k])).Perm
          (k :: (rest.map Prod.fst ++ acc.map Prod.fst)) := by
        rw [← List.append_assoc]
        exact List.perm_append_singleton _ _
      exact hperm.nodup_iff.mpr hcons
    · rw [keys_upsertMergeRecord, if_neg hkacc, List.append_assoc]
      rfl

/-- Every value of the merged map comes from the accumulator or the pairs. -/
theorem snd_mem_foldl_upsert (pairs : List (String × ParsedExcelRecord)) :
    ∀ (acc : List (String × ParsedExcelRecord)) (x : ParsedExcelRecord),
      x ∈ (pairs.foldl (fun a e => upsertMergeRecord e.1 e.2 a) acc).map Prod.snd →
      x ∈ acc.map Prod.snd ∨ x ∈ pairs.map Prod.snd := by
  induction pairs with
  | nil => intro acc x h; exact Or.inl h
  | cons e rest ih =>
    intro acc x h
    rw [List.foldl_cons] at h
    rcases ih _ x h with h | h
    · rcases snd_mem_upsertMergeRecord h with h | h
      · exact Or.inr (h ▸ List.mem_cons_self _ _)
      · exact Or.inl h
    · exact Or.inr (List.mem_cons_of_mem _ h)

/-- Folding over a flattened map is the nested fold. -/
theorem foldl_flatMap {α β γ : Type} (l : List α) (f : α → List β)
    (g : γ → β → γ) :
    ∀ init : γ, (l.flatMap f).foldl g init =
      l.foldl (fun acc x => (f x).foldl g acc) init := by
  induction l with
  | nil => intro init; rfl
  | cons a as ih =>
    intro init
    rw [List.flatMap_cons, List.foldl_append, List.foldl_cons, ih]

/-- The merge map fold is the fold of the flat insertion list. -/
theorem mergeFold_eq_pairs (workbooks : List ParsedExcelWorkbook)
    (headers : List String) :
    workbooks.enum.foldl (fun acc p =>
        p.2.records.foldl (fun acc record =>
          upsertMergeRecord (mergeRecordKey p.1 record)
            (alignRecordToHeaders headers record) acc) acc) [] =
      (mergePairs workbooks headers).foldl
        (fun a e => upsertMergeRecord e.1 e.2 a) [] := by
  rw [mergePairs, foldl_flatMap]
  simp only [List.foldl_map]

/-- The keys of the flat insertion list are the merge keys. -/
theorem mergePairs_keys (workbooks : List ParsedExcelWorkbook)
    (headers : List String) :
    (mergePairs workbooks headers).map Prod.fst = mergeKeys workbooks := by
  rw [mergePairs, mergeKeys, List.map_flatMap]
  simp only [List.map_map]
  rfl

/-- There is one insertion per input record. -/
theorem mergePairs_length (workbooks : List ParsedExcelWorkbook)
    (headers : List String) :
    (mergePairs workbooks headers).length =
      (workbooks.map (fun w => w.records.length)).sum := by
  rw [mergePairs]
  simp only [List.length_flatMap]
  have h : List.map (List.length ∘ fun p => p.2.records.map (fun r =>
        (mergeRecordKey p.1 r, alignRecordToHeaders headers r))) workbooks.enum
      = workbooks.enum.map (fun p => p.2.records.length) :=
    List.map_congr_left (fun p _ => by simp)
  rw [h, show workbooks.enum.map (fun p => p.2.records.length) =
    (workbooks.enum.map Prod.snd).map (fun w => w.records.length) from by
      rw [List.map_map]; rfl, List.enum_map_snd]

/-- Every inserted value is some input record aligned to the headers. -/
theorem mem_snd_mergePairs {workbooks : List ParsedExcelWorkbook}
    {headers : List String} {x : ParsedExcelRecord}
    (h : x ∈ (mergePairs workbooks headers).map Prod.snd) :
    ∃ w ∈ workbooks, ∃ r ∈ w.records, x = alignRecordToHeaders headers r := by
  rw [mergePairs, List.map_flatMap] at h
  obtain ⟨p, hp, hx⟩ := List.mem_flatMap.mp h
  rw [List.map_map] at hx
  obtain ⟨r, hr, hxr⟩ := List.mem_map.mp hx
  refine ⟨p.2, ?_, r, hr, hxr.symm⟩
  have hmem := List.mem_map_of_mem Prod.snd hp
  rwa [List.enum_map_snd] at hmem

/-- Aligned metric lists carry exactly the header names, in order. -/
theorem align_metric_names (headers : List String) (r : ParsedExcelRecord) :
    (alignRecordToHeaders headers r).metrics.map (fun m => m.metric) =
      headers := by
  rw [alignRecordToHeaders]
  simp only [List.map_map]
  conv_rhs => rw [← List.map_id headers]
  refine List.map_congr_left (fun h _ => ?_)
  simp only [Function.comp_apply, id]
  rcases hm : metricByNameLookup r.metrics h with _ | m
  · simp [emptyMetricFor]
  · rw [metricByNameLookup] at hm
    have := List.find?_some hm
    simpa using this

/-- Claim C6: merging a non-empty list of workbooks succeeds; the merged
headers are exactly the union of the input headers, without duplicates;
every merged record is some input record aligned to the merged headers, so
its metric list matches the headers one to one (with empty placeholders for
missing metrics); the records are sorted by apartment, then normalized
dateFrom, then normalized dateTo; when all per-file merge keys are distinct
no record is lost, so the merged count is the total input count; merging an
empty list fails with an error. -/
theorem C6_merge_workbooks (workbooks : List ParsedExcelWorkbook)
    (hne : workbooks ≠ []) :
    (∃ wb, mergeParsedWorkbooks workbooks = .ok wb ∧
      (∀ x, x ∈ wb.headers ↔ ∃ w ∈ workbooks, x ∈ w.headers) ∧
      wb.headers.Nodup ∧
      (∀ rec ∈ wb.records, ∃ w ∈ workbooks, ∃ r ∈ w.records,
        rec = alignRecordToHeaders wb.headers r) ∧
      (∀ rec ∈ wb.records, rec.metrics.map (fun m => m.metric) = wb.headers) ∧
      List.Sorted (fun a b => mergeRecordCmp a b ≤ 0) wb.records ∧
      wb.recordCount = wb.records.length ∧
      ((mergeKeys workbooks).Nodup →
        wb.records.length = (workbooks.map (fun w => w.records.length)).sum)) ∧
    mergeParsedWorkbooks [] = .error "No parsed workbook data available" := by
  refine ⟨?_, rfl⟩
  simp only [mergeParsedWorkbooks, if_neg hne]
  refine ⟨_, rfl, ?_, ?_, ?_, ?_, ?_, rfl, ?_⟩
  · intro x
    rw [mem_firstOccurrenceDedup, List.mem_flatMap]
  · exact nodup_firstOccurrenceDedup _
  · intro rec hrec
    have hmem := (List.perm_insertionSort
      (fun a b => mergeRecordCmp a b ≤ 0) _).mem_iff.mp hrec
    rw [mergeFold_eq_pairs] at hmem
    rcases snd_mem_foldl_upsert _ [] rec hmem with h | h
    · simp at h
    · exact mem_snd_mergePairs h
  · intro rec hrec
    have hmem := (List.perm_insertionSort
      (fun a b => mergeRecordCmp a b ≤ 0) _).mem_iff.mp hrec
    rw [mergeFold_eq_pairs] at hmem
    rcases snd_mem_foldl_upsert _ [] rec hmem with h | h
    · simp at h
    · obtain ⟨w, _, r, _, hx⟩ := mem_snd_mergePairs h
      rw [hx, align_metric_names]
  · exact List.sorted_insertionSort _ _
  · intro hkeys
    rw [(List.perm_insertionSort (fun a b => mergeRecordCmp a b ≤ 0) _).length_eq,
      List.length_map, mergeFold_eq_pairs]
    have hnd : ((mergePairs workbooks
        (firstOccurrenceDedup (workbooks.flatMap (·.headers)))).map Prod.fst ++
        (([] : List (String × ParsedExcelRecord)).map Prod.fst)).Nodup := by
      rw [mergePairs_keys]
      simpa using hkeys
    have hk := foldl_upsert_keys _ [] hnd
    have hlen := congrArg List.length hk
    simp only [List.length_map, List.length_append, List.map_nil,
      List.length_nil, Nat.zero_add] at hlen
    rw [hlen, mergePairs_length]

/-- Witness for C6: merging a workbook with itself keeps both record
copies. -/
theorem C6_merge_workbooks_witness :
    ∃ wb, mergeParsedWorkbooks [c6Wb, c6Wb] = .ok wb ∧
      wb.records.length = 2 ∧
      List.Sorted (fun a b => mergeRecordCmp a b ≤ 0) wb.records := by
  obtain ⟨wb, hok, _, _, _, _, hsort, _, hcount⟩ :=
    (C6_merge_workbooks [c6Wb, c6Wb] (by decide)).1
  refine ⟨wb, hok, ?_, hsort⟩
  rw [hcount (by decide)]
  rfl

end ExcelAnalyzer
